import Mathlib

/-!
# Verification of the Glencoe curling simulator core

A shallow embedding, over the real numbers, of the two numerical cores of the
repository:

* the position/outcome evaluator (`evaluatePosition17` and its helpers, from
  the end-evaluator module), and
* the stone-motion physics engine (`simulateStone`, `simulateAll`,
  `simulateDraw`, `resolveCollision`, `detectCollisions` from
  `js/models/Simulation.js` and the physics utility module).

JavaScript floating-point numbers are modelled as real numbers; the JS
truthiness guards (`s || 1`, `skill || 50`, `BASELINE[k] || 1e-5`) are modelled
by explicit zero tests, which is what they compute on numbers.  Team tags are
kept as strings, as in the source.  Probability tables keyed by the integers
−8..8 are modelled as functions `ℤ → ℝ` that vanish outside the key set the
source object carries.
-/

noncomputable section

open scoped Classical BigOperators

namespace Curling

/-! ## Constants of the end evaluator (source: end-evaluator module) -/

def R_HOUSE : ℝ := 1.829
def D_STONE : ℝ := 0.285

def H0 : ℝ := 0.90
def ALPHA1 : ℝ := 1.0
def GAMMA : ℝ := 1.5
def W_GUARD : ℝ := 0.60
def W_CENTER : ℝ := 0.30
def W_FREEZE : ℝ := 0.40
def W_TAKEOUT : ℝ := 0.50
def W_CONG : ℝ := 0.20
def CENTER_BAND : ℝ := 0.60
def FREEZE_RADIUS : ℝ := 0.35

def HALF_WIDTH : ℝ := 2.44
def BACK_LINE : ℝ := -5.486
def HOG_LINE : ℝ := 6.40

def BASELINE_HAMMER : List ℝ := [0.30, 0.40, 0.25, 0.04, 0.01, 0, 0, 0, 0]
def BASELINE_STEAL : List ℝ :=
  [0.035, 0.010, 0.003, 0.001, 0.0006, 0.0003, 0.0001, 0.00005]

def DBL_DMAX : ℝ := 0.95
def DBL_THETA_MAX : ℝ := 12 * Real.pi / 180
def DBL_J : ℝ := 0.10
def DBL_L : ℝ := 0.20
def DBL_KAPPA : ℝ := 4.0
def DBL_BETA0 : ℝ := 0.3
def DBL_BETA1 : ℝ := 1.0
def DBL_LAMBDA : ℝ := 0.5
def DBL_CAP_RHO : ℝ := 0.6

def A_EV : ℝ := 1.0
def BETA0 : ℝ := 0.35
def BETA1 : ℝ := 0.90

/-- The two team tags the evaluator recognises. -/
def RED : String := "red"

def YELLOW : String := "yellow"

/-! ## Utilities (source: `clamp`, `softmax1D`, `isInPlay`, `hypot2`) -/

/-- `clamp(x,lo,hi) = Math.max(lo, Math.min(hi, x))`. -/
def clamp (x lo hi : ℝ) : ℝ := max lo (min hi x)

/-- JS numeric `a || b`: `b` when `a` is `0` (or an out-of-range lookup,
modelled by a default of `0`), else `a`. -/
def jsOr (a b : ℝ) : ℝ := if a = 0 then b else a

/-- `Math.hypot(x, y)`. -/
def hypot2 (x y : ℝ) : ℝ := Real.sqrt (x ^ 2 + y ^ 2)

/-- `softmax1D`: subtract the max, exponentiate, normalise by the sum
(`s || 1` guards an exactly-zero sum). -/
def softmax1D (arr : List ℝ) : List ℝ :=
  let m := (arr.max?).getD 0
  let exps := arr.map fun v => Real.exp (v - m)
  let s := exps.sum
  exps.map fun v => v / (if s = 0 then 1 else s)

/-- `isInPlay(x,y)`: the stone's centre is inside the sheet rectangle widened
by half a stone diameter. -/
def isInPlay (x y : ℝ) : Bool :=
  decide (|x| ≤ HALF_WIDTH + D_STONE / 2 ∧
    BACK_LINE - D_STONE / 2 ≤ y ∧ y ≤ HOG_LINE + D_STONE / 2)

/-! ## Positional scoring (source: `baseHammer` .. `computeTeamStoneValues`) -/

/-- A stone tuple `[team, x, y]` as consumed by the evaluator. -/
abbrev StoneIn := String × ℝ × ℝ

/-- Strip the team tags, keeping the coordinates (the `map` to `[x,y]` pairs
performed inline in the source). -/
def coords (stones : List StoneIn) : List (ℝ × ℝ) :=
  stones.map fun st => (st.2.1, st.2.2)

def baseHammer (s : ℤ) (team hammerTeam : String) : ℝ :=
  H0 * Real.sqrt (max (s : ℝ) 0 / 16.0) * (if team = hammerTeam then 1 else -1)

def radialValue (r : ℝ) : ℝ :=
  if r > R_HOUSE then 0.0
  else
    let depthBoost : ℝ := if r < 1.3 then 1.25 else 0.9
    depthBoost * ALPHA1 * (1.0 - (r / R_HOUSE) ^ GAMMA)

/-- `hasLineOfSightBlocker([x,y], blockers)` with the default 7.5° cone: `1.0`
when some strictly closer blocker sits inside the narrow cone towards the
button (or the degenerate guards fire), else `0.0`.  The source's early
`return 1.0` inside its loop is order-insensitive, so it is modelled by an
existential over the blocker list. -/
def hasLineOfSightBlocker (x y : ℝ) (blockers : List (ℝ × ℝ)) : ℝ :=
  let vx := -x
  let vy := -y
  let vr := hypot2 vx vy
  if vr < 1e-6 then 1.0
  else
    let ux := vx / vr
    let uy := vy / vr
    let phi := 7.5 * Real.pi / 180
    if ∃ b ∈ blockers,
        hypot2 b.1 b.2 < vr - 1e-6 ∧
        (hypot2 (b.1 - x) (b.2 - y) < 1e-6 ∨
          (Real.arccos (max (-1) (min 1 (((b.1 - x) * ux + (b.2 - y) * uy) /
              hypot2 (b.1 - x) (b.2 - y)))) ≤ phi ∧
            hypot2 (b.1 - x) (b.2 - y) *
              Real.sqrt (max 0 (1 - (max (-1) (min 1 (((b.1 - x) * ux + (b.2 - y) * uy) /
                hypot2 (b.1 - x) (b.2 - y)))) ^ 2)) ≤ D_STONE / 2))
    then 1.0 else 0.0

def takeoutEase (G : ℝ) : ℝ := 1.0 - 0.9 * G

def centerFactor (x : ℝ) : ℝ := 1.0 - min |x| 1.0

/-- The evaluator-internal per-stone record (`PositionalEntry`). -/
structure Entry where
  x : ℝ
  y : ℝ
  r : ℝ
  G : ℝ
  T : ℝ
  v : ℝ
  pre : ℝ
  acc : ℝ

instance : Inhabited Entry := ⟨⟨0, 0, 0, 0, 0, 0, 0, 0⟩⟩

def computeTeamStoneValues (team : String) (stones : List StoneIn) : List Entry :=
  let allPos := coords stones
  let teamPos := coords (stones.filter fun st => st.1 = team)
  teamPos.map fun p =>
    let x := p.1
    let y := p.2
    let r := hypot2 x y
    let v0 := radialValue r
    if v0 ≤ 0 then ⟨x, y, r, 0, 1, 0, 0, 0⟩
    else
      let G := hasLineOfSightBlocker x y allPos
      let v1 := v0 * (1 + W_GUARD * G)
      let v2 := v1 * (1 + W_CENTER * centerFactor x)
      let F : ℝ := if ∃ q ∈ teamPos, ¬(q.1 = x ∧ q.2 = y) ∧
          hypot2 (q.1 - x) (q.2 - y) ≤ FREEZE_RADIUS ∧ hypot2 q.1 q.2 ≤ r + 0.10
        then 1 else 0
      let v3 := v2 * (1 + W_FREEZE * F)
      let T := takeoutEase G
      let v4 := v3 * (1 - W_TAKEOUT * T)
      ⟨x, y, r, G, T, v4, v4, 0⟩

/-! ## Double-takeout vulnerability (source: `applyDoubleVulnerability`) -/

/-- The index pairs `i < j` visited by the nested loops, in source order. -/
def pairIndices (n : ℕ) : List (ℕ × ℕ) :=
  (List.range n).flatMap fun i => ((List.range n).drop (i + 1)).map fun j => (i, j)

/-- The blocker attenuation product `B` accumulated over all stones other than
the pair itself (throw direction `u = (0,−1)`, normal `n = (1,0)`). -/
def dblBlockerFactor (others : List (ℝ × ℝ)) (ei ej : Entry) : ℝ :=
  others.foldl (fun B k =>
    if (k.1 = ei.x ∧ k.2 = ei.y) ∨ (k.1 = ej.x ∧ k.2 = ej.y) then B
    else B * (1 - Real.exp (-((|k.1 - ei.x| / DBL_L) ^ 2)))) 1

/-- One `i<j` iteration of the double-takeout pass: possibly deduct from the
entries at positions `ij.1` and `ij.2`. -/
def dblPairStep (others : List (ℝ × ℝ)) (beta : ℝ) (es : List Entry)
    (ij : ℕ × ℕ) : List Entry :=
  let ei := es.getD ij.1 default
  let ej := es.getD ij.2 default
  if ei.r > R_HOUSE ∨ ej.r > R_HOUSE then es
  else
    let dx := ej.x - ei.x
    let dy := ej.y - ei.y
    let dij := hypot2 dx dy
    if dij > DBL_DMAX ∨ dij < 1e-6 then es
    else
      let X := min ei.T ej.T
      let cosv := max (-1) (min 1 ((dx * 0 + dy * (-1)) / dij))
      let thetaSmall := Real.arccos |cosv|
      let A := max 0 (1 - thetaSmall / DBL_THETA_MAX)
      let off := |dx * 1 + dy * 0|
      let w := max 0 (D_STONE / 2 - off)
      let W := clamp (w / DBL_J) 0 1
      let B := clamp (dblBlockerFactor others ei ej) 0 1
      let Pdbl := 1 / (1 + Real.exp (-(DBL_KAPPA * (X * A * W * B) - beta)))
      let Mi := max ei.v 0
      let Mj := max ej.v 0
      let M := Mi + Mj
      if M ≤ 0 then es
      else
        let delta := DBL_LAMBDA * Pdbl * M
        let capi := DBL_CAP_RHO * ei.pre - ei.acc
        let capj := DBL_CAP_RHO * ej.pre - ej.acc
        let di := min (delta * (Mi / M)) (max 0 capi)
        let dj := min (delta * (Mj / M)) (max 0 capj)
        let ei' := { ei with v := max 0 (ei.v - di), acc := ei.acc + di }
        let ej' := { ej with v := max 0 (ej.v - dj), acc := ej.acc + dj }
        (es.set ij.1 ei').set ij.2 ej'

/-- The source mutates `teamEntries` in place while iterating `i<j` pairs in
array order; modelled as a left fold over `pairIndices` returning the updated
entry list. -/
def applyDoubleVulnerability (teamEntries : List Entry) (allStones : List StoneIn)
    (s : ℤ) (skill : ℝ) : List Entry :=
  if teamEntries.length < 2 then teamEntries
  else
    let q := clamp (jsOr skill 50 / 100) 0.1 0.9
    let S := Real.sqrt (max (s : ℝ) 0 / 16.0)
    let beta := DBL_BETA0 + DBL_BETA1 * (1 - q) * (1 - S)
    let others := coords allStones
    (pairIndices teamEntries.length).foldl (dblPairStep others beta) teamEntries

/-! ## Congestion (source: `congestionTerm`) -/

/-- Stones of `team` beyond the house but on the centre band. -/
def countCenter (stones : List StoneIn) (team : String) : ℕ :=
  (stones.filter fun st =>
    st.1 = team ∧ R_HOUSE < hypot2 st.2.1 st.2.2 ∧ |st.2.1| ≤ CENTER_BAND).length

def congestionTerm (stones : List StoneIn) (hammerTeam : String) (s : ℤ) : ℝ :=
  let nh := if hammerTeam = RED then YELLOW else RED
  W_CONG * ((countCenter stones nh : ℝ) - countCenter stones hammerTeam) *
    Real.sqrt (max (s : ℝ) 0 / 16.0)

/-! ## The 17-bucket distribution (source: `distribution17_fromScore`) -/

/-- `kVals = [-8, …, 8]`. -/
def kVals : List ℤ := (List.range 17).map fun (i : ℕ) => (i : ℤ) - 8

/-- The baseline prior for bucket `k` (`BASELINE_HAMMER[k] || 1e-5`, resp.
`BASELINE_STEAL[-k-1] || 1e-5`; an out-of-range index behaves like the falsy
`undefined`). -/
def baselineFor (k : ℤ) : ℝ :=
  if k = 0 then BASELINE_HAMMER.getD 0 0
  else if 0 < k then jsOr (BASELINE_HAMMER.getD k.toNat 0) 1e-5
  else jsOr (BASELINE_STEAL.getD (-k - 1).toNat 0) 1e-5

/-- The 17-entry probability list `probs` of `distribution17_fromScore`:
log-baseline quadratically penalised logits pushed through the softmax. -/
def dist17Probs (scoreForHammer : ℝ) (s : ℤ) (skill : ℝ) : List ℝ :=
  let sRoot := Real.sqrt (max (s : ℝ) 0 / 16.0)
  let q := clamp (jsOr skill 50 / 100) 0.1 0.9
  let mu := clamp (A_EV * scoreForHammer) (-6) 6
  let beta := BETA0 + BETA1 * (1 - q) * (1 - sRoot)
  let logits := kVals.map fun k =>
    Real.log (baselineFor k + 1e-12) - beta * ((k : ℝ) - mu) ^ 2
  softmax1D logits

/-- The bucket table `out` built from `probs` on the keys `−8..8`. -/
def distribution17_fromScore (scoreForHammer : ℝ) (s : ℤ) (skill : ℝ) : ℤ → ℝ :=
  fun k => if k ∈ Finset.Icc (-8 : ℤ) 8 then
    (dist17Probs scoreForHammer s skill).getD (k + 8).toNat 0 else 0

/-! ## Feasibility constraints and terminal collapse (source:
`countThrown`, `collapseToTerminal`, `applyConstraints`) -/

/-- Stones thrown so far by each team after shot `n` (0-based): the pair is
`(red, yellow)`. -/
def countThrown (n : ℕ) (hammerTeam : String) : ℕ × ℕ :=
  let n1 := n + 1
  if hammerTeam = RED then (n1 / 2, (n1 + 1) / 2) else ((n1 + 1) / 2, n1 / 2)

/-- Distances to the button of `team`'s in-play stones inside the house.  The
source sorts this list ascending and only ever reads its head (the minimum)
and counts filtered elements, so the sort itself is dropped. -/
def houseDists (stones : List StoneIn) (team : String) : List ℝ :=
  (stones.filter fun st =>
      st.1 = team ∧ isInPlay st.2.1 st.2.2 = true ∧ hypot2 st.2.1 st.2.2 ≤ R_HOUSE).map
    fun st => hypot2 st.2.1 st.2.2

/-- The deterministic end-of-end score computed by `collapseToTerminal`
(`rSorted[0]` of the source's ascending sort is the list minimum; the
source's ternary `cutoff = rYel.length ? rYel[0] : Infinity` becomes the
branch on emptiness — against an infinite cutoff every stone counts). -/
def terminalScore (stones : List StoneIn) (hammerTeam : String) : ℤ :=
  let rRed := houseDists stones RED
  let rYel := houseDists stones YELLOW
  if rRed = [] ∧ rYel = [] then 0
  else if rRed ≠ [] ∧ (rYel = [] ∨ rRed.min?.getD 0 < rYel.min?.getD 0 - 1e-9) then
    let raw : ℤ :=
      if rYel = [] then (rRed.length : ℤ)
      else ((rRed.filter fun r => r < rYel.min?.getD 0 - 1e-9).length : ℤ)
    if hammerTeam = RED then raw else -raw
  else if rYel ≠ [] ∧ (rRed = [] ∨ rYel.min?.getD 0 < rRed.min?.getD 0 - 1e-9) then
    let raw : ℤ :=
      if rRed = [] then (rYel.length : ℤ)
      else ((rYel.filter fun r => r < rRed.min?.getD 0 - 1e-9).length : ℤ)
    if hammerTeam = YELLOW then raw else -raw
  else 0

/-- The deterministic end-of-end outcome distribution: probability 1 on the
single bucket `terminalScore` (the source writes `b[score] = 1` onto a zeroed
table). -/
def collapseToTerminal (stones : List StoneIn) (hammerTeam : String) : ℤ → ℝ :=
  fun k => if k = terminalScore stones hammerTeam then 1 else 0

/-- In-play stones of a team (for the feasibility counts). -/
def inPlayCount (stones : List StoneIn) (team : String) : ℕ :=
  (stones.filter fun st => st.1 = team ∧ isInPlay st.2.1 st.2.2 = true).length

/-- `maxRed = inRed + remRed`: red's in-play stones plus its remaining throws. -/
def maxRedFeasible (stones : List StoneIn) (hammerTeam : String) (n : ℕ) : ℤ :=
  (inPlayCount stones RED : ℤ) + (8 - ((countThrown n hammerTeam).1 : ℤ))

/-- `maxYel = inYel + remYel`: yellow's in-play stones plus its remaining throws. -/
def maxYelFeasible (stones : List StoneIn) (hammerTeam : String) (n : ℕ) : ℤ :=
  (inPlayCount stones YELLOW : ℤ) + (8 - ((countThrown n hammerTeam).2 : ℤ))

/-- The two zeroing loops of `applyConstraints` (`k` in `1..8`: hammer-side
bucket `k` zeroed past the hammer team's own capacity; steal-side bucket `−k`
zeroed past the non-hammer team's own capacity). -/
def constrainedBuckets (buckets : ℤ → ℝ) (stones : List StoneIn) (hammerTeam : String)
    (n : ℕ) : ℤ → ℝ := fun k =>
  let maxRed := maxRedFeasible stones hammerTeam n
  let maxYel := maxYelFeasible stones hammerTeam n
  if 1 ≤ k ∧ k ≤ 8 ∧
      ((hammerTeam = RED ∧ k > maxRed) ∨ (hammerTeam = YELLOW ∧ k > maxYel)) then 0
  else if 1 ≤ -k ∧ -k ≤ 8 ∧
      ((hammerTeam = RED ∧ -k > maxYel) ∨ (hammerTeam = YELLOW ∧ -k > maxRed)) then 0
  else buckets k

def applyConstraints (buckets : ℤ → ℝ) (stones : List StoneIn) (hammerTeam : String)
    (s : ℤ) (n : ℕ) : ℤ → ℝ :=
  if s = 0 then collapseToTerminal stones hammerTeam
  else
    let b1 := constrainedBuckets buckets stones hammerTeam n
    let Z := ∑ k in Finset.Icc (-8 : ℤ) 8, b1 k
    if Z > 0 then fun k => b1 k / Z else b1

/-! ## Entry point (source: `evaluatePosition17`) -/

structure Advantage where
  red : ℝ
  yellow : ℝ

structure AdvantageResult where
  advantage : Advantage
  buckets17 : ℤ → ℝ

def evaluatePosition17 (shotNumber : ℕ) (hammerTeam : String) (stones : List StoneIn)
    (skillPercent : ℝ := 50) : AdvantageResult :=
  let s : ℤ := 16 - ((shotNumber : ℤ) + 1)
  let teamRed := applyDoubleVulnerability (computeTeamStoneValues RED stones)
    stones s skillPercent
  let teamYel := applyDoubleVulnerability (computeTeamStoneValues YELLOW stones)
    stones s skillPercent
  let posRed := (teamRed.map Entry.v).sum
  let posYel := (teamYel.map Entry.v).sum
  let cong := congestionTerm stones hammerTeam s
  let base := baseHammer s RED hammerTeam
  let scoreRed := base + (posRed - posYel) + cong
  let scoreForHammer := if hammerTeam = RED then scoreRed else -scoreRed
  let buckets := applyConstraints (distribution17_fromScore scoreForHammer s skillPercent)
    stones hammerTeam s shotNumber
  { advantage := ⟨scoreRed, -scoreRed⟩, buckets17 := buckets }

end Curling

namespace Phys

/-! ## Data model (source: `State.js`, `Stone.js`, `SheetDimensions.js`) -/

/-- One kinematic snapshot (`State` class). -/
structure State where
  t : ℝ
  x : ℝ
  y : ℝ
  vx : ℝ
  vy : ℝ
  w : ℝ

/-- The physics parameter record (`Params`). -/
structure Params where
  m : ℝ
  g : ℝ
  R : ℝ
  rBand : ℝ
  mu0 : ℝ
  alpha : ℝ
  segments : ℕ
  dt : ℝ
  vStop : ℝ
  wStop : ℝ
  vEps : ℝ
  restitution : ℝ
  tMax : ℝ

/-- A stone (`Stone` class: id, team, kinematic state, in-play flag). -/
structure Stone where
  id : ℕ
  team : String
  x : ℝ
  y : ℝ
  vx : ℝ
  vy : ℝ
  w : ℝ
  t : ℝ
  inPlay : Bool

instance : Inhabited Stone :=
  ⟨{ id := 0, team := Curling.RED, x := 0, y := 0, vx := 0, vy := 0, w := 0,
     t := 0, inPlay := false }⟩

/-- The sheet bounds consumed by the steppers. -/
structure SheetDims where
  XMIN : ℝ
  XMAX : ℝ
  HALF_W : ℝ

def hypot (x y : ℝ) : ℝ := Real.sqrt (x ^ 2 + y ^ 2)

/-- `unit(vx, vy, eps)` from the physics utility module. -/
def unit (vx vy eps : ℝ) : ℝ × ℝ × ℝ :=
  let s := hypot vx vy
  if s < eps then (0, 0, eps) else (vx / s, vy / s, s)

def Stone.toState (st : Stone) : State := ⟨st.t, st.x, st.y, st.vx, st.vy, st.w⟩

def Stone.fromState (st : Stone) (s : State) : Stone :=
  { st with t := s.t, x := s.x, y := s.y, vx := s.vx, vy := s.vy, w := s.w }

/-! ## Force model and integrator (source: `simulateStone`, `Simulation.js`) -/

/-- The distributed running-band friction: net `(Fx, Fy, τ)` summed over the
`segments` point contacts (the inner `for phi of phis` loop). -/
def bandForces (p : Params) (s : State) : ℝ × ℝ × ℝ :=
  let dN := p.m * p.g / (p.segments : ℝ)
  (List.range p.segments).foldl (fun acc i =>
    let phi := 2 * Real.pi * (i : ℝ) / (p.segments : ℝ)
    let vlocx := s.vx - s.w * p.rBand * Real.sin phi
    let vlocy := s.vy + s.w * p.rBand * Real.cos phi
    let vmag := Curling.jsOr (hypot vlocx vlocy) p.vEps
    let mu := p.mu0 * (1 / Real.sqrt vmag)
    let vhatx := vlocx / vmag
    let vhaty := vlocy / vmag
    let dFx := -(dN * mu) * vhatx
    let dFy := -(dN * mu) * vhaty
    (acc.1 + dFx, acc.2.1 + dFy,
      acc.2.2 + p.rBand * (Real.cos phi * dFy - Real.sin phi * dFx)))
    (0, 0, 0)

/-- Band friction plus the pivot/curl slip force: the total `(Fx, Fy, τ)` of
one accepted step. -/
def netForce (p : Params) (s : State) : ℝ × ℝ × ℝ :=
  let F := bandForces p s
  let Vh := unit s.vx s.vy p.vEps
  let Vperpx := -Vh.2.1
  let Vperpy := Vh.1
  let vRot := max (|s.w| * p.rBand) p.vEps
  let muP := p.alpha * p.mu0 * (1 / Real.sqrt vRot)
  let FpMag := p.m * p.g * muP
  let sgnw : ℝ := if s.w > 0 then 1 else if s.w < 0 then -1 else 0
  (F.1 + sgnw * FpMag * Vperpx, F.2.1 + sgnw * FpMag * Vperpy,
    F.2.2 + -sgnw * FpMag * p.rBand)

/-- One accepted integration step of `simulateStone`: velocities first from
`F/m` and `τ/I`, then positions from the *updated* velocities. -/
def eulerStep (p : Params) (s : State) : State :=
  let F := netForce p s
  let ax := F.1 / p.m
  let ay := F.2.1 / p.m
  let I := 0.5 * p.m * p.R ^ 2
  let alphaZ := F.2.2 / I
  let vx := s.vx + p.dt * ax
  let vy := s.vy + p.dt * ay
  let w := s.w + p.dt * alphaZ
  let x := s.x + p.dt * vx
  let y := s.y + p.dt * vy
  ⟨s.t + p.dt, x, y, vx, vy, w⟩

/-- The stop test heading each loop iteration. -/
def stopped (p : Params) (s : State) : Prop :=
  hypot s.vx s.vy < p.vStop ∧ |s.w| < p.wStop

/-- The bounded time loop of `simulateStone`: up to `n` further steps from
state `s`; returns the appended snapshots and the final state. -/
def simStoneAux (p : Params) : ℕ → State → List State × State
  | 0, s => ([], s)
  | n + 1, s =>
    if stopped p s then ([], s)
    else
      let s' := eulerStep p s
      let r := simStoneAux p n s'
      (s' :: r.1, r.2)

set_option linter.unusedVariables false in
/-- `simulateStone(stone, p, duration, checkCollisions)`: `N = ⌊duration/dt⌋`
steps.  The `checkCollisions` flag only controls intermediate in-place
mutation of `stone`, which a pure model cannot observe; the final
`stone.fromState` write is kept. -/
def simulateStone (stone : Stone) (p : Params) (duration : ℝ)
    (checkCollisions : Bool := true) : List State × Stone :=
  let s0 := stone.toState
  let r := simStoneAux p (⌊duration / p.dt⌋).toNat s0
  (s0 :: r.1, stone.fromState r.2)

/-! ## Collision resolver (source: `resolveCollision`, `detectCollisions`) -/

/-- `resolveCollision(stone1, stone2, params)`: equal-and-opposite impulse
along the line of centres (skipped when already separating), the empirical
spin perturbation from the post-impulse velocities, and the even split of the
penetration depth. -/
def resolveCollision (stone1 stone2 : Stone) (p : Params) : Stone × Stone :=
  let dx := stone2.x - stone1.x
  let dy := stone2.y - stone1.y
  let distance := Real.sqrt (dx ^ 2 + dy ^ 2)
  let nx := dx / distance
  let ny := dy / distance
  let dvx := stone2.vx - stone1.vx
  let dvy := stone2.vy - stone1.vy
  let relativeVelocityAlongNormal := dvx * nx + dvy * ny
  if relativeVelocityAlongNormal > 0 then (stone1, stone2)
  else
    let e := p.restitution
    let j := -(1 + e) * relativeVelocityAlongNormal / 2
    let v1x := stone1.vx - j * nx
    let v1y := stone1.vy - j * ny
    let v2x := stone2.vx + j * nx
    let v2y := stone2.vy + j * ny
    let crossFactor : ℝ := 0.5
    let w1 := stone1.w + crossFactor * (nx * v1y - ny * v1x)
    let w2 := stone2.w + crossFactor * (nx * v2y - ny * v2x)
    let overlap := 2 * p.R - distance
    ({ stone1 with
        vx := v1x, vy := v1y, w := w1,
        x := stone1.x - overlap * nx / 2, y := stone1.y - overlap * ny / 2 },
      { stone2 with
        vx := v2x, vy := v2y, w := w2,
        x := stone2.x + overlap * nx / 2, y := stone2.y + overlap * ny / 2 })

/-- One `i<j` iteration of `detectCollisions`' nested loops, on the live
stone list. -/
def collidePairStep (p : Params) (stones : List Stone) (ij : ℕ × ℕ) : List Stone :=
  let si := stones.getD ij.1 default
  let sj := stones.getD ij.2 default
  if si.inPlay ∧ sj.inPlay then
    let dx := sj.x - si.x
    let dy := sj.y - si.y
    let distance := Real.sqrt (dx ^ 2 + dy ^ 2)
    if distance < 2 * p.R then
      let r := resolveCollision si sj p
      (stones.set ij.1 r.1).set ij.2 r.2
    else stones
  else stones

/-- `detectCollisions(stonesList, params)`: all unordered pairs in source
order, mutation modelled by a left fold (the in-play flags are never changed
by `resolveCollision`, so hoisting the outer `inPlay` test into the pair step
is sound). -/
def detectCollisions (stonesList : List Stone) (p : Params) : List Stone :=
  (Curling.pairIndices stonesList.length).foldl (collidePairStep p) stonesList

/-! ## Multi-stone stepper (source: `simulateAll`) -/

/-- The off-sheet removal test of the `simulateAll` loop body. -/
def offSheetStone (geom : SheetDims) (st : Stone) : Prop :=
  st.x > geom.XMAX + 0.5 ∨ st.x < geom.XMIN - 0.5 ∨ |st.y| > geom.HALF_W + 0.5

/-- Per-stone body of one tick: one `dt` of `simulateStone`, the recorded
snapshot (the last state of the step trajectory), and the removal check. -/
def moveStone (p : Params) (geom : SheetDims) (st : Stone) : Stone × Option State :=
  if st.inPlay then
    let r := simulateStone st p p.dt false
    let st' := r.2
    let snap := r.1.getLast?
    (if offSheetStone geom st' then { st' with inPlay := false } else st', snap)
  else (st, none)

/-- `allStopped`: every stone is out of play or below both stop thresholds. -/
def allStopped (p : Params) (stones : List Stone) : Prop :=
  ∀ st ∈ stones, st.inPlay = false ∨ (hypot st.vx st.vy < p.vStop ∧ |st.w| < p.wStop)

/-- One tick of the `while` loop: move every in-play stone, record snapshots
into the per-id trajectories, then run the collision pass once. -/
def tick (p : Params) (geom : SheetDims) (stones : List Stone)
    (trajs : ℕ → List State) : List Stone × (ℕ → List State) :=
  let step := stones.foldl (fun (acc : List Stone × (ℕ → List State)) st =>
    let r := moveStone p geom st
    (acc.1 ++ [r.1],
      match r.2 with
      | none => acc.2
      | some snap => fun id => if id = st.id then acc.2 id ++ [snap] else acc.2 id))
    ([], trajs)
  (detectCollisions step.1 p, step.2)

/-- The `while (time < duration)` loop, with an explicit fuel bound on the
number of ticks; `none` means the fuel ran out while the loop guard still
held. -/
def simulateAllLoop (p : Params) (geom : SheetDims) (duration : ℝ) :
    ℕ → ℝ → List Stone → (ℕ → List State) →
      Option ((ℕ → List State) × List Stone)
  | 0, time, stones, trajs =>
    if time < duration ∧ ¬allStopped p stones then none else some (trajs, stones)
  | fuel + 1, time, stones, trajs =>
    if time < duration then
      if allStopped p stones then some (trajs, stones)
      else
        let r := tick p geom stones trajs
        simulateAllLoop p geom duration fuel (time + p.dt) r.1 r.2
    else some (trajs, stones)

/-- `simulateAll(p, duration, stones, sheetDimensions)`, run with fuel
`⌈duration/dt⌉` — the tick bound claimed by the design. -/
def simulateAll (p : Params) (duration : ℝ) (stones : List Stone)
    (geom : SheetDims) : Option ((ℕ → List State) × List Stone) :=
  simulateAllLoop p geom duration (⌈duration / p.dt⌉).toNat 0 stones fun _ => []

/-! ## Draw simulation (source: `simulateDraw`) -/

/-- One accepted integration step of `simulateDraw` — the source duplicates
the physics block of `simulateStone` verbatim, and so does this embedding. -/
def drawEulerStep (p : Params) (s : State) : State :=
  let F := netForce p s
  let ax := F.1 / p.m
  let ay := F.2.1 / p.m
  let I := 0.5 * p.m * p.R ^ 2
  let alphaZ := F.2.2 / I
  let vx := s.vx + p.dt * ax
  let vy := s.vy + p.dt * ay
  let w := s.w + p.dt * alphaZ
  let x := s.x + p.dt * vx
  let y := s.y + p.dt * vy
  ⟨s.t + p.dt, x, y, vx, vy, w⟩

/-- The off-sheet break of the `simulateDraw` loop (the just-pushed state is
kept and the loop exits). -/
def offSheet (geom : SheetDims) (x y : ℝ) : Prop :=
  x > geom.XMAX + 0.5 ∨ x < geom.XMIN - 0.5 ∨ |y| > geom.HALF_W + 0.5

def drawAux (p : Params) (geom : SheetDims) : ℕ → State → List State
  | 0, _ => []
  | n + 1, s =>
    if stopped p s then []
    else
      let s' := drawEulerStep p s
      if offSheet geom s'.x s'.y then [s']
      else s' :: drawAux p geom n s'

/-- `simulateDraw(Vmag, omegaMag, turnStr, p, startPt, broomPt, sheet)`: the
returned trajectory (the `stoneStopped`/`stoppedOnSheet` metadata attached to
the JS array is not part of the trajectory list itself). -/
def simulateDraw (Vmag omegaMag : ℝ) (turnStr : String) (p : Params)
    (startPt broomPt : ℝ × ℝ) (geom : SheetDims) : List State :=
  let dir := unit (broomPt.1 - startPt.1) (broomPt.2 - startPt.2) p.vEps
  let vx0 := Vmag * dir.1
  let vy0 := Vmag * dir.2.1
  let w0 := if turnStr = "in" then |omegaMag| else -|omegaMag|
  let s0 : State := ⟨0, startPt.1, startPt.2, vx0, vy0, w0⟩
  s0 :: drawAux p geom (⌊p.tMax / p.dt⌋).toNat s0

end Phys

namespace Curling

/-! ## Spec-side definitions (for refinement claims) -/

/-- An unknown team label, used to exercise malformed input. -/
def BLUE : String := "blue"

/-- Another unknown team label. -/
def ATAG : String := "A"

/-- Modelled from the spec: the terminal-collapse computation exactly as the
spec and claim words it — among in-play stones inside the house, the team
owning the strictly closest stone scores the number of its stones strictly
closer than the best opposing stone, capped at 8, signed positive for the
hammer team; 0 with no stones in the house (an exact tie for closest leaves
no team owning the closest stone, hence 0).  No `1e-9` tolerances appear. -/
def terminalOutcomeStrict (stones : List StoneIn) (hammerTeam : String) : ℤ :=
  let rRed := houseDists stones RED
  let rYel := houseDists stones YELLOW
  if rRed = [] ∧ rYel = [] then 0
  else if rYel = [] then
    (if hammerTeam = RED then 1 else -1) * min (rRed.length : ℤ) 8
  else if rRed = [] then
    (if hammerTeam = YELLOW then 1 else -1) * min (rYel.length : ℤ) 8
  else if rRed.min?.getD 0 < rYel.min?.getD 0 then
    (if hammerTeam = RED then 1 else -1) *
      min ((rRed.filter fun r => r < rYel.min?.getD 0).length : ℤ) 8
  else if rYel.min?.getD 0 < rRed.min?.getD 0 then
    (if hammerTeam = YELLOW then 1 else -1) *
      min ((rYel.filter fun r => r < rRed.min?.getD 0).length : ℤ) 8
  else 0

/-- Modelled from the spec, amended by the source's `1e-9` comparison
tolerance: the closest team must be closer by more than `1e-9` (otherwise the
score is 0), and only its stones more than `1e-9` closer than the best
opposing stone are counted; the cap at 8 is kept. -/
def terminalOutcomeTol (stones : List StoneIn) (hammerTeam : String) : ℤ :=
  let rRed := houseDists stones RED
  let rYel := houseDists stones YELLOW
  if rRed = [] ∧ rYel = [] then 0
  else if rYel = [] then
    (if hammerTeam = RED then 1 else -1) * min (rRed.length : ℤ) 8
  else if rRed = [] then
    (if hammerTeam = YELLOW then 1 else -1) * min (rYel.length : ℤ) 8
  else if rRed.min?.getD 0 < rYel.min?.getD 0 - 1e-9 then
    (if hammerTeam = RED then 1 else -1) *
      min ((rRed.filter fun r => r < rYel.min?.getD 0 - 1e-9).length : ℤ) 8
  else if rYel.min?.getD 0 < rRed.min?.getD 0 - 1e-9 then
    (if hammerTeam = YELLOW then 1 else -1) *
      min ((rYel.filter fun r => r < rRed.min?.getD 0 - 1e-9).length : ℤ) 8
  else 0

/-- A concrete near-tie position: red's best stone at distance 1 from the
button, yellow's best at distance `1 + 5·10⁻¹⁰` — closer than red's by less
than the source's `1e-9` comparison tolerance. -/
def nearTieStones : List StoneIn := [(RED, 0, -1), (YELLOW, 0, 1 + 5e-10)]

end Curling

namespace Phys

/-! ## Derived notions used in claim statements -/

/-- Distance between two stones' centres, as computed in the collision code
(`Math.sqrt(dx*dx + dy*dy)`). -/
def centerDist (s1 s2 : Stone) : ℝ :=
  Real.sqrt ((s2.x - s1.x) ^ 2 + (s2.y - s1.y) ^ 2)

/-- The relative velocity of the pair projected on the unit normal along the
line of centres — positive means the stones are already separating. -/
def separating (s1 s2 : Stone) : Prop :=
  0 < (s2.vx - s1.vx) * ((s2.x - s1.x) / centerDist s1 s2) +
    (s2.vy - s1.vy) * ((s2.y - s1.y) / centerDist s1 s2)

/-- A concrete all-ones parameter set (used to exercise the physics engine at
a specific input). -/
def unitParams : Params :=
  { m := 1, g := 1, R := 1, rBand := 1, mu0 := 1, alpha := 1, segments := 1,
    dt := 1, vStop := 1, wStop := 1, vEps := 1, restitution := 1, tMax := 1 }

/-- A concrete sheet. -/
def unitSheet : SheetDims := { XMIN := 0, XMAX := 1, HALF_W := 1 }

/-- A stone at rest at a given position. -/
def stoneAt (x y vx vy : ℝ) : Stone :=
  { id := 0, team := Curling.RED, x := x, y := y, vx := vx, vy := vy, w := 0,
    t := 0, inPlay := true }

/-- The semi-implicit Euler step relation between consecutive accepted
trajectory snapshots: velocities advance first from the forces at `a`, then
positions advance using the *updated* velocities. -/
def stepRel (p : Params) (a b : State) : Prop :=
  b.vx = a.vx + p.dt * ((netForce p a).1 / p.m) ∧
  b.vy = a.vy + p.dt * ((netForce p a).2.1 / p.m) ∧
  b.w = a.w + p.dt * ((netForce p a).2.2 / (0.5 * p.m * p.R ^ 2)) ∧
  b.x = a.x + p.dt * b.vx ∧
  b.y = a.y + p.dt * b.vy

end Phys

namespace Curling

/-! ## List and softmax helper lemmas -/

theorem list_sum_map_div (L : List ℝ) (c : ℝ) :
    (L.map fun v => v / c).sum = L.sum / c := by
  induction L with
  | nil => simp
  | cons a L ih => simp [ih, add_div]

theorem list_sum_getD_range (L : List ℝ) :
    ∑ i in Finset.range L.length, L.getD i 0 = L.sum := by
  induction L with
  | nil => simp
  | cons a L ih =>
    rw [List.length_cons, Finset.sum_range_succ']
    simp only [List.getD_cons_succ, List.getD_cons_zero]
    rw [ih, List.sum_cons, add_comm]

theorem softmax1D_length (L : List ℝ) : (softmax1D L).length = L.length := by
  simp [softmax1D]

theorem softmax1D_sum (L : List ℝ) (h : L ≠ []) : (softmax1D L).sum = 1 := by
  have hexp : ∀ x ∈ L.map fun v => Real.exp (v - (L.max?).getD 0), 0 < x := by
    intro x hx
    rcases List.mem_map.mp hx with ⟨v, _, rfl⟩
    exact Real.exp_pos _
  have hne : (L.map fun v => Real.exp (v - (L.max?).getD 0)) ≠ [] := by
    simpa using h
  have hpos : 0 < (L.map fun v => Real.exp (v - (L.max?).getD 0)).sum :=
    List.sum_pos _ hexp hne
  have hz : (L.map fun v => Real.exp (v - (L.max?).getD 0)).sum ≠ 0 := ne_of_gt hpos
  simp only [softmax1D, if_neg hz, list_sum_map_div]
  exact div_self hz

theorem softmax1D_mem_pos (L : List ℝ) (h : L ≠ []) :
    ∀ x ∈ softmax1D L, 0 < x := by
  intro x hx
  have hexp : ∀ y ∈ L.map fun v => Real.exp (v - (L.max?).getD 0), 0 < y := by
    intro y hy
    rcases List.mem_map.mp hy with ⟨v, _, rfl⟩
    exact Real.exp_pos _
  have hne : (L.map fun v => Real.exp (v - (L.max?).getD 0)) ≠ [] := by
    simpa using h
  have hpos : 0 < (L.map fun v => Real.exp (v - (L.max?).getD 0)).sum :=
    List.sum_pos _ hexp hne
  have hz : (L.map fun v => Real.exp (v - (L.max?).getD 0)).sum ≠ 0 := ne_of_gt hpos
  simp only [softmax1D, if_neg hz] at hx
  rcases List.mem_map.mp hx with ⟨y, hy, rfl⟩
  exact div_pos (hexp y hy) hpos

theorem softmax1D_getD_pos (L : List ℝ) (h : L ≠ []) (i : ℕ)
    (hi : i < L.length) : 0 < (softmax1D L).getD i 0 := by
  have hlen : i < (softmax1D L).length := by rw [softmax1D_length]; exact hi
  rw [List.getD_eq_getElem _ _ hlen]
  exact softmax1D_mem_pos L h _ (List.getElem_mem hlen)

/-- Reindexing a sum over the 17 score buckets `−8..8` by `i ↦ i − 8`. -/
theorem sum_Icc_eq_sum_range (f : ℤ → ℝ) :
    ∑ k in Finset.Icc (-8 : ℤ) 8, f k = ∑ i in Finset.range 17, f ((i : ℤ) - 8) := by
  refine Finset.sum_nbij' (fun k => (k + 8).toNat) (fun i => (i : ℤ) - 8) ?_ ?_ ?_ ?_ ?_ <;>
    intro a ha <;>
    simp only [Finset.mem_Icc, Finset.mem_range] at * <;>
    first
      | omega
      | (congr 1; omega)

/-! ## Properties of the 17-bucket distribution -/

theorem kVals_length : kVals.length = 17 := by
  rw [kVals, List.length_map, List.length_range]

theorem kVals_map_length (f : ℤ → ℝ) : (kVals.map f).length = 17 := by
  rw [List.length_map, kVals_length]

theorem kVals_map_ne_nil (f : ℤ → ℝ) : kVals.map f ≠ [] := by
  intro hnil
  have := kVals_map_length f
  rw [hnil] at this
  simp at this

theorem dist17Probs_length (score : ℝ) (s : ℤ) (skill : ℝ) :
    (dist17Probs score s skill).length = 17 := by
  simp only [dist17Probs, softmax1D_length]
  exact kVals_map_length _

theorem dist17Probs_sum (score : ℝ) (s : ℤ) (skill : ℝ) :
    (dist17Probs score s skill).sum = 1 := by
  simp only [dist17Probs]
  exact softmax1D_sum _ (kVals_map_ne_nil _)

theorem dist17Probs_getD_pos (score : ℝ) (s : ℤ) (skill : ℝ) (i : ℕ) (hi : i < 17) :
    0 < (dist17Probs score s skill).getD i 0 := by
  simp only [dist17Probs]
  refine softmax1D_getD_pos _ (kVals_map_ne_nil _) _ ?_
  rw [kVals_map_length]
  exact hi

theorem dist17_outside (score : ℝ) (s : ℤ) (skill : ℝ) :
    ∀ k ∉ Finset.Icc (-8 : ℤ) 8, distribution17_fromScore score s skill k = 0 := by
  intro k hk
  simp only [distribution17_fromScore]
  exact if_neg hk

theorem dist17_pos (score : ℝ) (s : ℤ) (skill : ℝ) (k : ℤ)
    (hk : k ∈ Finset.Icc (-8 : ℤ) 8) :
    0 < distribution17_fromScore score s skill k := by
  simp only [distribution17_fromScore, if_pos hk]
  refine dist17Probs_getD_pos score s skill _ ?_
  simp only [Finset.mem_Icc] at hk
  omega

theorem dist17_nonneg (score : ℝ) (s : ℤ) (skill : ℝ) (k : ℤ) :
    0 ≤ distribution17_fromScore score s skill k := by
  by_cases hk : k ∈ Finset.Icc (-8 : ℤ) 8
  · exact le_of_lt (dist17_pos score s skill k hk)
  · rw [dist17_outside score s skill k hk]

theorem dist17_sum (score : ℝ) (s : ℤ) (skill : ℝ) :
    ∑ k in Finset.Icc (-8 : ℤ) 8, distribution17_fromScore score s skill k = 1 := by
  rw [sum_Icc_eq_sum_range]
  have h1 : ∀ i ∈ Finset.range 17,
      distribution17_fromScore score s skill ((i : ℤ) - 8) =
        (dist17Probs score s skill).getD i 0 := by
    intro i hi
    simp only [Finset.mem_range] at hi
    simp only [distribution17_fromScore]
    rw [if_pos (by simp only [Finset.mem_Icc]; omega),
      show ((i : ℤ) - 8 + 8).toNat = i by omega]
  rw [Finset.sum_congr rfl h1, show (17 : ℕ) = (dist17Probs score s skill).length from
    (dist17Probs_length score s skill).symm, list_sum_getD_range]
  exact dist17Probs_sum score s skill

/-! ## Properties of the feasibility pass -/

theorem constrainedBuckets_nonneg (buckets : ℤ → ℝ) (stones : List StoneIn)
    (hammerTeam : String) (n : ℕ) (hnn : ∀ k, 0 ≤ buckets k) :
    ∀ k, 0 ≤ constrainedBuckets buckets stones hammerTeam n k := by
  intro k
  simp only [constrainedBuckets]
  split_ifs
  · exact le_rfl
  · exact le_rfl
  · exact hnn k

theorem constrainedBuckets_at_zero (buckets : ℤ → ℝ) (stones : List StoneIn)
    (hammerTeam : String) (n : ℕ) :
    constrainedBuckets buckets stones hammerTeam n 0 = buckets 0 := by
  simp only [constrainedBuckets]
  rw [if_neg fun hcon => by norm_num at hcon, if_neg fun hcon => by norm_num at hcon]

theorem constrainedBuckets_outside (buckets : ℤ → ℝ) (stones : List StoneIn)
    (hammerTeam : String) (n : ℕ)
    (hout : ∀ k ∉ Finset.Icc (-8 : ℤ) 8, buckets k = 0) :
    ∀ k ∉ Finset.Icc (-8 : ℤ) 8, constrainedBuckets buckets stones hammerTeam n k = 0 := by
  intro k hk
  simp only [constrainedBuckets]
  split_ifs
  · rfl
  · rfl
  · exact hout k hk

theorem constrainedBuckets_zero_hammer (buckets : ℤ → ℝ) (stones : List StoneIn)
    (hammerTeam : String) (n : ℕ) (k : ℤ) (h1 : 1 ≤ k) (h8 : k ≤ 8)
    (hcond : (hammerTeam = RED ∧ maxRedFeasible stones hammerTeam n < k) ∨
      (hammerTeam = YELLOW ∧ maxYelFeasible stones hammerTeam n < k)) :
    constrainedBuckets buckets stones hammerTeam n k = 0 := by
  simp only [constrainedBuckets]
  exact if_pos ⟨h1, h8, hcond⟩

theorem constrainedBuckets_zero_steal (buckets : ℤ → ℝ) (stones : List StoneIn)
    (hammerTeam : String) (n : ℕ) (k : ℤ) (h1 : 1 ≤ k) (h8 : k ≤ 8)
    (hcond : (hammerTeam = RED ∧ maxYelFeasible stones hammerTeam n < k) ∨
      (hammerTeam = YELLOW ∧ maxRedFeasible stones hammerTeam n < k)) :
    constrainedBuckets buckets stones hammerTeam n (-k) = 0 := by
  simp only [constrainedBuckets, neg_neg]
  rw [if_neg fun hcon => absurd hcon.1 (by omega), if_pos ⟨h1, h8, hcond⟩]

theorem applyConstraints_eq_div (buckets : ℤ → ℝ) (stones : List StoneIn)
    (hammerTeam : String) (s : ℤ) (n : ℕ) (hs : s ≠ 0)
    (hZ : 0 < ∑ k in Finset.Icc (-8 : ℤ) 8, constrainedBuckets buckets stones hammerTeam n k) :
    applyConstraints buckets stones hammerTeam s n =
      fun k => constrainedBuckets buckets stones hammerTeam n k /
        ∑ j in Finset.Icc (-8 : ℤ) 8, constrainedBuckets buckets stones hammerTeam n j := by
  simp only [applyConstraints, if_neg hs]
  rw [if_pos hZ]

theorem applyConstraints_Z_pos (buckets : ℤ → ℝ) (stones : List StoneIn)
    (hammerTeam : String) (n : ℕ) (hpos0 : 0 < buckets 0) (hnn : ∀ k, 0 ≤ buckets k) :
    0 < ∑ k in Finset.Icc (-8 : ℤ) 8, constrainedBuckets buckets stones hammerTeam n k := by
  refine Finset.sum_pos' (fun k _ => constrainedBuckets_nonneg buckets stones hammerTeam n hnn k)
    ⟨0, by simp, ?_⟩
  rw [constrainedBuckets_at_zero]
  exact hpos0

/-- All properties of `applyConstraints` needed by the claims, in the `s ≠ 0`
(softmax) branch: the mass is renormalised to 1, keys outside `−8..8` stay
empty, and the two zeroing loops have fired. -/
theorem applyConstraints_spec (buckets : ℤ → ℝ) (stones : List StoneIn)
    (hammerTeam : String) (s : ℤ) (n : ℕ) (hs : s ≠ 0)
    (hpos0 : 0 < buckets 0) (hnn : ∀ k, 0 ≤ buckets k)
    (hout : ∀ k ∉ Finset.Icc (-8 : ℤ) 8, buckets k = 0) :
    (∑ k in Finset.Icc (-8 : ℤ) 8, applyConstraints buckets stones hammerTeam s n k = 1) ∧
    (∀ k ∉ Finset.Icc (-8 : ℤ) 8, applyConstraints buckets stones hammerTeam s n k = 0) ∧
    (∀ k : ℤ, 1 ≤ k → k ≤ 8 →
      ((hammerTeam = RED ∧ maxRedFeasible stones hammerTeam n < k) ∨
        (hammerTeam = YELLOW ∧ maxYelFeasible stones hammerTeam n < k)) →
      applyConstraints buckets stones hammerTeam s n k = 0) ∧
    (∀ k : ℤ, 1 ≤ k → k ≤ 8 →
      ((hammerTeam = RED ∧ maxYelFeasible stones hammerTeam n < k) ∨
        (hammerTeam = YELLOW ∧ maxRedFeasible stones hammerTeam n < k)) →
      applyConstraints buckets stones hammerTeam s n (-k) = 0) := by
  have hZ := applyConstraints_Z_pos buckets stones hammerTeam n hpos0 hnn
  have happ := applyConstraints_eq_div buckets stones hammerTeam s n hs hZ
  refine ⟨?_, ?_, ?_, ?_⟩
  · rw [happ, ← Finset.sum_div, div_self (ne_of_gt hZ)]
  · intro k hk
    rw [happ]
    simp only
    rw [constrainedBuckets_outside buckets stones hammerTeam n hout k hk, zero_div]
  · intro k h1 h8 hcond
    rw [happ]
    simp only
    rw [constrainedBuckets_zero_hammer buckets stones hammerTeam n k h1 h8 hcond, zero_div]
  · intro k h1 h8 hcond
    rw [happ]
    simp only
    rw [constrainedBuckets_zero_steal buckets stones hammerTeam n k h1 h8 hcond, zero_div]

/-! ## Properties of the terminal collapse -/

theorem houseDists_length_le (stones : List StoneIn) (team : String) :
    (houseDists stones team).length ≤ (stones.filter fun st => st.1 = team).length := by
  simp only [houseDists, List.length_map]
  refine List.Sublist.length_le (List.monotone_filter_right _ ?_)
  intro a ha
  simp only [decide_eq_true_eq] at *
  exact ha.1

theorem terminalScore_mem (stones : List StoneIn) (hammer : String)
    (hred : (stones.filter fun st => st.1 = RED).length ≤ 8)
    (hyel : (stones.filter fun st => st.1 = YELLOW).length ≤ 8) :
    terminalScore stones hammer ∈ Finset.Icc (-8 : ℤ) 8 := by
  have hR : (houseDists stones RED).length ≤ 8 :=
    le_trans (houseDists_length_le stones RED) hred
  have hY : (houseDists stones YELLOW).length ≤ 8 :=
    le_trans (houseDists_length_le stones YELLOW) hyel
  have hfR : ((houseDists stones RED).filter fun r =>
      r < (houseDists stones YELLOW).min?.getD 0 - 1e-9).length ≤ 8 :=
    le_trans (List.length_filter_le _ _) hR
  have hfY : ((houseDists stones YELLOW).filter fun r =>
      r < (houseDists stones RED).min?.getD 0 - 1e-9).length ≤ 8 :=
    le_trans (List.length_filter_le _ _) hY
  simp only [terminalScore, Finset.mem_Icc]
  split_ifs <;> omega

theorem collapse_sum (stones : List StoneIn) (hammer : String)
    (hmem : terminalScore stones hammer ∈ Finset.Icc (-8 : ℤ) 8) :
    ∑ k in Finset.Icc (-8 : ℤ) 8, collapseToTerminal stones hammer k = 1 := by
  simp only [collapseToTerminal]
  rw [Finset.sum_ite_eq' (Finset.Icc (-8 : ℤ) 8) (terminalScore stones hammer) fun _ => (1 : ℝ),
    if_pos hmem]

theorem collapse_outside (stones : List StoneIn) (hammer : String)
    (hmem : terminalScore stones hammer ∈ Finset.Icc (-8 : ℤ) 8) :
    ∀ k ∉ Finset.Icc (-8 : ℤ) 8, collapseToTerminal stones hammer k = 0 := by
  intro k hk
  simp only [collapseToTerminal]
  exact if_neg fun heq => hk (by rw [heq]; exact hmem)

/-! ## Evaluator-level bucket facts -/

/-- With `s ≠ 0` (any shot but the last) the buckets of `evaluatePosition17`
live on the keys `−8..8`, sum to 1, and satisfy the two feasibility zeroing
loops. -/
theorem eval_buckets_spec (n : ℕ) (hammer : String) (stones : List StoneIn) (skill : ℝ)
    (hn : n ≠ 15) :
    (∑ k in Finset.Icc (-8 : ℤ) 8,
      (evaluatePosition17 n hammer stones skill).buckets17 k = 1) ∧
    (∀ k ∉ Finset.Icc (-8 : ℤ) 8,
      (evaluatePosition17 n hammer stones skill).buckets17 k = 0) ∧
    (∀ k : ℤ, 1 ≤ k → k ≤ 8 →
      ((hammer = RED ∧ maxRedFeasible stones hammer n < k) ∨
        (hammer = YELLOW ∧ maxYelFeasible stones hammer n < k)) →
      (evaluatePosition17 n hammer stones skill).buckets17 k = 0) ∧
    (∀ k : ℤ, 1 ≤ k → k ≤ 8 →
      ((hammer = RED ∧ maxYelFeasible stones hammer n < k) ∨
        (hammer = YELLOW ∧ maxRedFeasible stones hammer n < k)) →
      (evaluatePosition17 n hammer stones skill).buckets17 (-k) = 0) := by
  simp only [evaluatePosition17]
  exact applyConstraints_spec _ stones hammer _ n (by omega)
    (dist17_pos _ _ _ 0 (by decide)) (fun k => dist17_nonneg _ _ _ k)
    (dist17_outside _ _ _)

/-- At the last shot (`shotNumber = 15`, so `s = 0`) the buckets are the
terminal collapse. -/
theorem eval_buckets_terminal (hammer : String) (stones : List StoneIn) (skill : ℝ) :
    (evaluatePosition17 15 hammer stones skill).buckets17 =
      collapseToTerminal stones hammer := by
  simp only [evaluatePosition17, applyConstraints]
  norm_num

theorem list_min?_none {l : List ℝ} (h : l.min? = none) : l = [] := by
  cases l with
  | nil => rfl
  | cons a t => simp [List.min?] at h

theorem list_min?_some_ne {l : List ℝ} {a : ℝ} (h : l.min? = some a) : l ≠ [] := by
  intro hnil
  rw [hnil] at h
  simp [List.min?] at h

/-- The source's terminal score equals the spec's terminal computation with
the `1e-9` tolerance amendments, for at most 8 stones per team (which makes
the spec's cap at 8 inert). -/
theorem terminalScore_eq_tol (stones : List StoneIn) (hammer : String)
    (hred : (stones.filter fun st => st.1 = RED).length ≤ 8)
    (hyel : (stones.filter fun st => st.1 = YELLOW).length ≤ 8) :
    terminalScore stones hammer = terminalOutcomeTol stones hammer := by
  have hR8 : (houseDists stones RED).length ≤ 8 :=
    le_trans (houseDists_length_le stones RED) hred
  have hY8 : (houseDists stones YELLOW).length ≤ 8 :=
    le_trans (houseDists_length_le stones YELLOW) hyel
  have hfR : ((houseDists stones RED).filter fun r =>
      r < (houseDists stones YELLOW).min?.getD 0 - 1e-9).length ≤ 8 :=
    le_trans (List.length_filter_le _ _) hR8
  have hfY : ((houseDists stones YELLOW).filter fun r =>
      r < (houseDists stones RED).min?.getD 0 - 1e-9).length ≤ 8 :=
    le_trans (List.length_filter_le _ _) hY8
  simp only [terminalScore, terminalOutcomeTol]
  split_ifs <;> first | omega | tauto

/-! ## Stones with unrecognised team tags are invisible to the evaluator -/

theorem filter_team_eq_nil (stones : List StoneIn) (team : String)
    (h : ∀ st ∈ stones, st.1 ≠ team) :
    (stones.filter fun st => st.1 = team) = [] := by
  rw [List.filter_eq_nil_iff]
  intro a ha
  simp only [decide_eq_true_eq]
  exact h a ha

theorem computeTeamStoneValues_nil (team : String) (stones : List StoneIn)
    (h : ∀ st ∈ stones, st.1 ≠ team) :
    computeTeamStoneValues team stones = [] := by
  simp only [computeTeamStoneValues, coords, filter_team_eq_nil stones team h,
    List.map_nil]

theorem computeTeamStoneValues_empty (team : String) :
    computeTeamStoneValues team [] = [] := by
  simp [computeTeamStoneValues, coords]

theorem applyDoubleVulnerability_nil (allStones : List StoneIn) (s : ℤ) (skill : ℝ) :
    applyDoubleVulnerability [] allStones s skill = [] := by
  simp [applyDoubleVulnerability]

theorem inPlayCount_eq_zero (stones : List StoneIn) (team : String)
    (h : ∀ st ∈ stones, st.1 ≠ team) : inPlayCount stones team = 0 := by
  simp only [inPlayCount, List.length_eq_zero]
  rw [List.filter_eq_nil_iff]
  intro a ha
  simp only [decide_eq_true_eq, not_and]
  intro h1
  exact absurd h1 (h a ha)

theorem inPlayCount_empty (team : String) : inPlayCount [] team = 0 := by
  simp [inPlayCount]

theorem countCenter_eq_zero (stones : List StoneIn) (team : String)
    (h : ∀ st ∈ stones, st.1 ≠ team) : countCenter stones team = 0 := by
  simp only [countCenter, List.length_eq_zero]
  rw [List.filter_eq_nil_iff]
  intro a ha
  simp only [decide_eq_true_eq, not_and]
  intro h1
  exact absurd h1 (h a ha)

theorem countCenter_empty (team : String) : countCenter [] team = 0 := by
  simp [countCenter]

theorem houseDists_eq_nil (stones : List StoneIn) (team : String)
    (h : ∀ st ∈ stones, st.1 ≠ team) : houseDists stones team = [] := by
  simp only [houseDists, List.map_eq_nil_iff]
  rw [List.filter_eq_nil_iff]
  intro a ha
  simp only [decide_eq_true_eq, not_and]
  intro h1
  exact absurd h1 (h a ha)

theorem houseDists_empty (team : String) : houseDists [] team = [] := by
  simp [houseDists]

theorem maxRedFeasible_congr (stones : List StoneIn) (hammer : String) (n : ℕ)
    (hr : ∀ st ∈ stones, st.1 ≠ RED) :
    maxRedFeasible stones hammer n = maxRedFeasible [] hammer n := by
  simp only [maxRedFeasible, inPlayCount_eq_zero stones RED hr, inPlayCount_empty]

theorem maxYelFeasible_congr (stones : List StoneIn) (hammer : String) (n : ℕ)
    (hy : ∀ st ∈ stones, st.1 ≠ YELLOW) :
    maxYelFeasible stones hammer n = maxYelFeasible [] hammer n := by
  simp only [maxYelFeasible, inPlayCount_eq_zero stones YELLOW hy, inPlayCount_empty]

theorem constrainedBuckets_congr (buckets : ℤ → ℝ) (stones : List StoneIn)
    (hammer : String) (n : ℕ)
    (hr : ∀ st ∈ stones, st.1 ≠ RED) (hy : ∀ st ∈ stones, st.1 ≠ YELLOW) :
    constrainedBuckets buckets stones hammer n = constrainedBuckets buckets [] hammer n := by
  funext k
  simp only [constrainedBuckets, maxRedFeasible_congr stones hammer n hr,
    maxYelFeasible_congr stones hammer n hy]

theorem terminalScore_congr (stones : List StoneIn) (hammer : String)
    (hr : ∀ st ∈ stones, st.1 ≠ RED) (hy : ∀ st ∈ stones, st.1 ≠ YELLOW) :
    terminalScore stones hammer = terminalScore [] hammer := by
  simp only [terminalScore, houseDists_eq_nil stones RED hr,
    houseDists_eq_nil stones YELLOW hy, houseDists_empty]

theorem collapseToTerminal_congr (stones : List StoneIn) (hammer : String)
    (hr : ∀ st ∈ stones, st.1 ≠ RED) (hy : ∀ st ∈ stones, st.1 ≠ YELLOW) :
    collapseToTerminal stones hammer = collapseToTerminal [] hammer := by
  funext k
  simp only [collapseToTerminal, terminalScore_congr stones hammer hr hy]

theorem applyConstraints_congr (buckets : ℤ → ℝ) (stones : List StoneIn)
    (hammer : String) (s : ℤ) (n : ℕ)
    (hr : ∀ st ∈ stones, st.1 ≠ RED) (hy : ∀ st ∈ stones, st.1 ≠ YELLOW) :
    applyConstraints buckets stones hammer s n = applyConstraints buckets [] hammer s n := by
  simp only [applyConstraints, collapseToTerminal_congr stones hammer hr hy,
    constrainedBuckets_congr buckets stones hammer n hr hy]

theorem congestionTerm_congr (stones : List StoneIn) (hammer : String) (s : ℤ)
    (hr : ∀ st ∈ stones, st.1 ≠ RED) (hy : ∀ st ∈ stones, st.1 ≠ YELLOW)
    (hhamm : hammer = RED ∨ hammer = YELLOW) :
    congestionTerm stones hammer s = congestionTerm [] hammer s := by
  rcases hhamm with h | h <;> subst h
  · simp only [congestionTerm, if_true]
    rw [countCenter_eq_zero stones YELLOW hy, countCenter_eq_zero stones RED hr,
      countCenter_empty, countCenter_empty]
  · simp only [congestionTerm]
    rw [if_neg (show ¬(YELLOW = RED) by decide),
      countCenter_eq_zero stones RED hr, countCenter_eq_zero stones YELLOW hy,
      countCenter_empty, countCenter_empty]

end Curling

/-! # Claim theorems -/

set_option linter.unusedVariables false in
/-- C1: for every valid input to `evaluatePosition17` (`shotNumber` in 0..15,
`hammerTeam` red or yellow, at most 8 stones per team, skill in 10..90) the
returned `buckets17` carries exactly the keys −8..8 (the table vanishes
outside them) and its 17 probabilities sum to 1 within `1e-9` (here: exactly,
in real arithmetic). -/
theorem buckets17_keys_and_sum_one (n : ℕ) (hammer : String)
    (stones : List Curling.StoneIn) (skill : ℝ) (hn : n ≤ 15)
    (hh : hammer = Curling.RED ∨ hammer = Curling.YELLOW)
    (hred : (stones.filter fun st => st.1 = Curling.RED).length ≤ 8)
    (hyel : (stones.filter fun st => st.1 = Curling.YELLOW).length ≤ 8)
    (hskill : 10 ≤ skill ∧ skill ≤ 90) :
    (∀ k ∉ Finset.Icc (-8 : ℤ) 8,
      (Curling.evaluatePosition17 n hammer stones skill).buckets17 k = 0) ∧
    |(∑ k in Finset.Icc (-8 : ℤ) 8,
      (Curling.evaluatePosition17 n hammer stones skill).buckets17 k) - 1| ≤ 1e-9 := by
  by_cases h15 : n = 15
  · subst h15
    rw [Curling.eval_buckets_terminal]
    have hmem := Curling.terminalScore_mem stones hammer hred hyel
    refine ⟨Curling.collapse_outside stones hammer hmem, ?_⟩
    rw [Curling.collapse_sum stones hammer hmem]
    norm_num
  · obtain ⟨hsum, hout, -, -⟩ := Curling.eval_buckets_spec n hammer stones skill h15
    refine ⟨hout, ?_⟩
    rw [hsum]
    norm_num

/-- Witness for C1 at the concrete input `(0, red, [], 50)`. -/
theorem buckets17_keys_and_sum_one_witness :
    ((0 : ℕ) ≤ 15 ∧
      (([] : List Curling.StoneIn).filter fun st => st.1 = Curling.RED).length ≤ 8 ∧
      (10 : ℝ) ≤ 50 ∧ (50 : ℝ) ≤ 90) ∧
    ((∀ k ∉ Finset.Icc (-8 : ℤ) 8,
        (Curling.evaluatePosition17 0 Curling.RED [] 50).buckets17 k = 0) ∧
      |(∑ k in Finset.Icc (-8 : ℤ) 8,
        (Curling.evaluatePosition17 0 Curling.RED [] 50).buckets17 k) - 1| ≤ 1e-9) :=
  ⟨⟨by norm_num, by simp, by norm_num, by norm_num⟩,
    buckets17_keys_and_sum_one 0 Curling.RED [] 50 (by norm_num) (Or.inl rfl)
      (by simp) (by simp) ⟨by norm_num, by norm_num⟩⟩

/-- C3: the two advantage values returned by `evaluatePosition17` are exact
negations of each other, for every input. -/
theorem advantage_red_eq_neg_yellow (n : ℕ) (hammer : String)
    (stones : List Curling.StoneIn) (skill : ℝ) :
    (Curling.evaluatePosition17 n hammer stones skill).advantage.red =
      -(Curling.evaluatePosition17 n hammer stones skill).advantage.yellow := by
  simp [Curling.evaluatePosition17]

/-- C9: `resolveCollision` conserves total linear momentum: the impulses are
equal and opposite, so the componentwise sum of the pair's velocities is
unchanged (in both the separating and the resolving branch). -/
theorem resolveCollision_momentum (s1 s2 : Phys.Stone) (p : Phys.Params) :
    ((Phys.resolveCollision s1 s2 p).1.vx + (Phys.resolveCollision s1 s2 p).2.vx =
      s1.vx + s2.vx) ∧
    ((Phys.resolveCollision s1 s2 p).1.vy + (Phys.resolveCollision s1 s2 p).2.vy =
      s1.vy + s2.vy) := by
  simp only [Phys.resolveCollision]
  split_ifs
  · exact ⟨rfl, rfl⟩
  · constructor <;> (simp only []; ring)

/-- C5 (amended): the entry point performs no input validation and never
fails: for every input — unknown team labels included — and any shot but the
last, `evaluatePosition17` returns an ordinary result whose buckets sum to 1
on the keys −8..8 and whose advantage pair is mutually negated. -/
theorem eval_total_no_failfast (n : ℕ) (hammer : String)
    (stones : List Curling.StoneIn) (skill : ℝ) (hn : n ≠ 15) :
    (∑ k in Finset.Icc (-8 : ℤ) 8,
      (Curling.evaluatePosition17 n hammer stones skill).buckets17 k = 1) ∧
    (∀ k ∉ Finset.Icc (-8 : ℤ) 8,
      (Curling.evaluatePosition17 n hammer stones skill).buckets17 k = 0) ∧
    (Curling.evaluatePosition17 n hammer stones skill).advantage.red =
      -(Curling.evaluatePosition17 n hammer stones skill).advantage.yellow := by
  obtain ⟨hsum, hout, -, -⟩ := Curling.eval_buckets_spec n hammer stones skill hn
  exact ⟨hsum, hout, by simp [Curling.evaluatePosition17]⟩

/-- Witness for the amended C5 at the malformed concrete input
`(0, "blue", [], 50)`. -/
theorem eval_total_no_failfast_witness :
    ((0 : ℕ) ≠ 15) ∧
    ((∑ k in Finset.Icc (-8 : ℤ) 8,
        (Curling.evaluatePosition17 0 Curling.BLUE [] 50).buckets17 k = 1) ∧
      (∀ k ∉ Finset.Icc (-8 : ℤ) 8,
        (Curling.evaluatePosition17 0 Curling.BLUE [] 50).buckets17 k = 0) ∧
      (Curling.evaluatePosition17 0 Curling.BLUE [] 50).advantage.red =
        -(Curling.evaluatePosition17 0 Curling.BLUE [] 50).advantage.yellow) :=
  ⟨by norm_num, eval_total_no_failfast 0 Curling.BLUE [] 50 (by norm_num)⟩

/-- C5 counterexample: `evaluatePosition17` does *not* fail fast on a
malformed input — with the unknown hammer label `"blue"` it returns an
ordinary, finite result: normalised buckets and the plain hammer-baseline
advantage `−0.9·√(15/16)` for red. -/
theorem eval_accepts_malformed_input :
    (∑ k in Finset.Icc (-8 : ℤ) 8,
      (Curling.evaluatePosition17 0 Curling.BLUE [] 50).buckets17 k = 1) ∧
    (Curling.evaluatePosition17 0 Curling.BLUE [] 50).advantage.red =
      -(0.9 * Real.sqrt (15 / 16)) := by
  refine ⟨(Curling.eval_buckets_spec 0 Curling.BLUE [] 50 (by norm_num)).1, ?_⟩
  simp only [Curling.evaluatePosition17, Curling.computeTeamStoneValues,
    Curling.applyDoubleVulnerability, Curling.congestionTerm, Curling.baseHammer,
    Curling.countCenter, Curling.coords, Curling.H0, Curling.W_CONG]
  norm_num [Curling.RED, Curling.YELLOW, Curling.BLUE]
  intro h
  exact absurd h (by decide)

/-- C6: after the feasibility pass (any non-terminal shot, hammer red or
yellow): hammer-side buckets `k` past the hammer team's in-play count plus
remaining throws are zero, steal-side buckets `−k` past the non-hammer team's
in-play count plus remaining throws are zero, and the surviving mass is
renormalised to sum to 1. -/
theorem feasibility_constraints_enforced (n : ℕ) (hammer : String)
    (stones : List Curling.StoneIn) (skill : ℝ) (hn : n ≤ 14)
    (hh : hammer = Curling.RED ∨ hammer = Curling.YELLOW) :
    (∀ k : ℤ, 1 ≤ k → k ≤ 8 →
      (if hammer = Curling.RED then Curling.maxRedFeasible stones hammer n
        else Curling.maxYelFeasible stones hammer n) < k →
      (Curling.evaluatePosition17 n hammer stones skill).buckets17 k = 0) ∧
    (∀ k : ℤ, 1 ≤ k → k ≤ 8 →
      (if hammer = Curling.RED then Curling.maxYelFeasible stones hammer n
        else Curling.maxRedFeasible stones hammer n) < k →
      (Curling.evaluatePosition17 n hammer stones skill).buckets17 (-k) = 0) ∧
    (∑ k in Finset.Icc (-8 : ℤ) 8,
      (Curling.evaluatePosition17 n hammer stones skill).buckets17 k = 1) := by
  have h15 : n ≠ 15 := by omega
  obtain ⟨hsum, -, hzh, hzs⟩ := Curling.eval_buckets_spec n hammer stones skill h15
  have hneq : hammer = Curling.YELLOW → hammer ≠ Curling.RED := by
    intro h
    rw [h]
    decide
  refine ⟨?_, ?_, hsum⟩
  · intro k h1 h8 hlt
    rcases hh with h | h
    · exact hzh k h1 h8 (Or.inl ⟨h, by rwa [if_pos h] at hlt⟩)
    · exact hzh k h1 h8 (Or.inr ⟨h, by rwa [if_neg (hneq h)] at hlt⟩)
  · intro k h1 h8 hlt
    rcases hh with h | h
    · exact hzs k h1 h8 (Or.inl ⟨h, by rwa [if_pos h] at hlt⟩)
    · exact hzs k h1 h8 (Or.inr ⟨h, by rwa [if_neg (hneq h)] at hlt⟩)

/-- Witness for C6 at the concrete input `(0, red, [], 50)`. -/
theorem feasibility_constraints_enforced_witness :
    ((0 : ℕ) ≤ 14 ∧ Curling.RED = Curling.RED) ∧
    ((∀ k : ℤ, 1 ≤ k → k ≤ 8 →
        (if Curling.RED = Curling.RED then Curling.maxRedFeasible [] Curling.RED 0
          else Curling.maxYelFeasible [] Curling.RED 0) < k →
        (Curling.evaluatePosition17 0 Curling.RED [] 50).buckets17 k = 0) ∧
      (∀ k : ℤ, 1 ≤ k → k ≤ 8 →
        (if Curling.RED = Curling.RED then Curling.maxYelFeasible [] Curling.RED 0
          else Curling.maxRedFeasible [] Curling.RED 0) < k →
        (Curling.evaluatePosition17 0 Curling.RED [] 50).buckets17 (-k) = 0) ∧
      (∑ k in Finset.Icc (-8 : ℤ) 8,
        (Curling.evaluatePosition17 0 Curling.RED [] 50).buckets17 k = 1)) :=
  ⟨⟨by norm_num, rfl⟩,
    feasibility_constraints_enforced 0 Curling.RED [] 50 (by norm_num) (Or.inl rfl)⟩

/-- C10: `evaluatePosition17` never rejects unrecognised team tags — stones
tagged neither red nor yellow contribute nothing to positional values,
congestion, feasibility counts, or terminal collapse, so a stone list made
only of unrecognised tags (e.g. "A"/"B") evaluates exactly like the empty
list (for the evaluator's two real hammer labels). -/
theorem unrecognized_tags_like_empty (n : ℕ) (hammer : String)
    (stones : List Curling.StoneIn) (skill : ℝ)
    (hhamm : hammer = Curling.RED ∨ hammer = Curling.YELLOW)
    (h : ∀ st ∈ stones, st.1 ≠ Curling.RED ∧ st.1 ≠ Curling.YELLOW) :
    Curling.evaluatePosition17 n hammer stones skill =
      Curling.evaluatePosition17 n hammer [] skill := by
  have hr : ∀ st ∈ stones, st.1 ≠ Curling.RED := fun st hst => (h st hst).1
  have hy : ∀ st ∈ stones, st.1 ≠ Curling.YELLOW := fun st hst => (h st hst).2
  simp only [Curling.evaluatePosition17]
  rw [Curling.computeTeamStoneValues_nil Curling.RED stones hr,
    Curling.computeTeamStoneValues_nil Curling.YELLOW stones hy,
    Curling.computeTeamStoneValues_empty Curling.RED,
    Curling.computeTeamStoneValues_empty Curling.YELLOW,
    Curling.congestionTerm_congr stones hammer _ hr hy hhamm,
    Curling.applyConstraints_congr _ stones hammer _ n hr hy,
    Curling.applyDoubleVulnerability_nil stones _ skill,
    Curling.applyDoubleVulnerability_nil [] _ skill]

/-- Witness for C10 at the concrete input `(0, red, [("A",0,0)], 50)`. -/
theorem unrecognized_tags_like_empty_witness :
    ((Curling.RED = Curling.RED ∨ Curling.RED = Curling.YELLOW) ∧
      (∀ st ∈ ([(("A" : String), (0 : ℝ), (0 : ℝ))] : List Curling.StoneIn),
        st.1 ≠ Curling.RED ∧ st.1 ≠ Curling.YELLOW)) ∧
    Curling.evaluatePosition17 0 Curling.RED [(("A" : String), (0 : ℝ), (0 : ℝ))] 50 =
      Curling.evaluatePosition17 0 Curling.RED [] 50 :=
  ⟨⟨Or.inl rfl, by
      intro st hst
      rw [List.mem_singleton] at hst
      subst hst
      exact ⟨by decide, by decide⟩⟩,
    unrecognized_tags_like_empty 0 Curling.RED _ 50 (Or.inl rfl) (by
      intro st hst
      rw [List.mem_singleton] at hst
      subst hst
      exact ⟨by decide, by decide⟩)⟩

/-! ## Collision separation (C4) -/

/-- Core algebra of the position correction: pushing the two centres apart by
half the overlap each along the unit normal puts them at distance exactly
`2R`. -/
theorem post_overlap_dist (dx dy R : ℝ) (hd : 0 < Real.sqrt (dx ^ 2 + dy ^ 2))
    (hR : Real.sqrt (dx ^ 2 + dy ^ 2) ≤ 2 * R) :
    Real.sqrt ((dx + (2 * R - Real.sqrt (dx ^ 2 + dy ^ 2)) *
        (dx / Real.sqrt (dx ^ 2 + dy ^ 2))) ^ 2 +
      (dy + (2 * R - Real.sqrt (dx ^ 2 + dy ^ 2)) *
        (dy / Real.sqrt (dx ^ 2 + dy ^ 2))) ^ 2) = 2 * R := by
  set d := Real.sqrt (dx ^ 2 + dy ^ 2) with hdd
  have hne : d ≠ 0 := ne_of_gt hd
  have hsq : d ^ 2 = dx ^ 2 + dy ^ 2 := by
    rw [hdd]
    exact Real.sq_sqrt (by positivity)
  have h1 : dx + (2 * R - d) * (dx / d) = dx * (2 * R) / d := by
    field_simp
    ring
  have h2 : dy + (2 * R - d) * (dy / d) = dy * (2 * R) / d := by
    field_simp
    ring
  rw [h1, h2]
  have h3 : (dx * (2 * R) / d) ^ 2 + (dy * (2 * R) / d) ^ 2 = (2 * R) ^ 2 := by
    have hc : (dx * (2 * R) / d) ^ 2 + (dy * (2 * R) / d) ^ 2 =
        (dx ^ 2 + dy ^ 2) * (2 * R) ^ 2 / d ^ 2 := by
      ring
    rw [hc, ← hsq]
    field_simp
  rw [h3, Real.sqrt_sq (by linarith)]

/-- C4 (amended): when the collision pass resolves an overlapping pair
(`0 < dist < 2R`): if the pair is not already separating, the post-resolution
centre distance is exactly `2R` (hence at least `2R − ε` for every `ε ≥ 0`);
if the pair is already separating, no impulse is applied and both stones are
returned entirely unchanged (so the distance also stays unchanged). -/
theorem resolveCollision_separation (s1 s2 : Phys.Stone) (p : Phys.Params)
    (hd : 0 < Phys.centerDist s1 s2) (hlt : Phys.centerDist s1 s2 < 2 * p.R) :
    (¬Phys.separating s1 s2 →
      Phys.centerDist (Phys.resolveCollision s1 s2 p).1
        (Phys.resolveCollision s1 s2 p).2 = 2 * p.R) ∧
    (Phys.separating s1 s2 →
      (Phys.resolveCollision s1 s2 p).1 = s1 ∧ (Phys.resolveCollision s1 s2 p).2 = s2) := by
  simp only [Phys.centerDist] at hd hlt
  constructor
  · intro hsep
    have hcond : ¬(0 < (s2.vx - s1.vx) *
        ((s2.x - s1.x) / Real.sqrt ((s2.x - s1.x) ^ 2 + (s2.y - s1.y) ^ 2)) +
        (s2.vy - s1.vy) *
        ((s2.y - s1.y) / Real.sqrt ((s2.x - s1.x) ^ 2 + (s2.y - s1.y) ^ 2))) := by
      simpa [Phys.separating, Phys.centerDist] using hsep
    simp only [Phys.resolveCollision, Phys.centerDist]
    rw [if_neg (by simpa using hcond)]
    simp only
    have hx : (s2.x + (2 * p.R - Real.sqrt ((s2.x - s1.x) ^ 2 + (s2.y - s1.y) ^ 2)) *
          ((s2.x - s1.x) / Real.sqrt ((s2.x - s1.x) ^ 2 + (s2.y - s1.y) ^ 2)) / 2) -
        (s1.x - (2 * p.R - Real.sqrt ((s2.x - s1.x) ^ 2 + (s2.y - s1.y) ^ 2)) *
          ((s2.x - s1.x) / Real.sqrt ((s2.x - s1.x) ^ 2 + (s2.y - s1.y) ^ 2)) / 2) =
        (s2.x - s1.x) + (2 * p.R - Real.sqrt ((s2.x - s1.x) ^ 2 + (s2.y - s1.y) ^ 2)) *
          ((s2.x - s1.x) / Real.sqrt ((s2.x - s1.x) ^ 2 + (s2.y - s1.y) ^ 2)) := by
      ring
    have hy : (s2.y + (2 * p.R - Real.sqrt ((s2.x - s1.x) ^ 2 + (s2.y - s1.y) ^ 2)) *
          ((s2.y - s1.y) / Real.sqrt ((s2.x - s1.x) ^ 2 + (s2.y - s1.y) ^ 2)) / 2) -
        (s1.y - (2 * p.R - Real.sqrt ((s2.x - s1.x) ^ 2 + (s2.y - s1.y) ^ 2)) *
          ((s2.y - s1.y) / Real.sqrt ((s2.x - s1.x) ^ 2 + (s2.y - s1.y) ^ 2)) / 2) =
        (s2.y - s1.y) + (2 * p.R - Real.sqrt ((s2.x - s1.x) ^ 2 + (s2.y - s1.y) ^ 2)) *
          ((s2.y - s1.y) / Real.sqrt ((s2.x - s1.x) ^ 2 + (s2.y - s1.y) ^ 2)) := by
      ring
    rw [hx, hy]
    exact post_overlap_dist (s2.x - s1.x) (s2.y - s1.y) p.R hd (le_of_lt hlt)
  · intro hsep
    have hcond : 0 < (s2.vx - s1.vx) *
        ((s2.x - s1.x) / Real.sqrt ((s2.x - s1.x) ^ 2 + (s2.y - s1.y) ^ 2)) +
        (s2.vy - s1.vy) *
        ((s2.y - s1.y) / Real.sqrt ((s2.x - s1.x) ^ 2 + (s2.y - s1.y) ^ 2)) := by
      simpa [Phys.separating, Phys.centerDist] using hsep
    simp only [Phys.resolveCollision]
    rw [if_pos (by simpa using hcond)]
    exact ⟨rfl, rfl⟩

/-- Witness for the amended C4: a head-on pair at distance 1 with `R = 1`,
closing at unit speed. -/
theorem resolveCollision_separation_witness :
    (0 < Phys.centerDist (Phys.stoneAt 0 0 0 0) (Phys.stoneAt 1 0 0 0) ∧
      Phys.centerDist (Phys.stoneAt 0 0 0 0) (Phys.stoneAt 1 0 0 0) <
        2 * Phys.unitParams.R) ∧
    (¬Phys.separating (Phys.stoneAt 0 0 0 0) (Phys.stoneAt 1 0 0 0) →
      Phys.centerDist
        (Phys.resolveCollision (Phys.stoneAt 0 0 0 0) (Phys.stoneAt 1 0 0 0)
          Phys.unitParams).1
        (Phys.resolveCollision (Phys.stoneAt 0 0 0 0) (Phys.stoneAt 1 0 0 0)
          Phys.unitParams).2 = 2 * Phys.unitParams.R) :=
  ⟨⟨by norm_num [Phys.centerDist, Phys.stoneAt, Phys.unitParams, Real.sqrt_one],
    by norm_num [Phys.centerDist, Phys.stoneAt, Phys.unitParams, Real.sqrt_one]⟩,
    (resolveCollision_separation (Phys.stoneAt 0 0 0 0) (Phys.stoneAt 1 0 0 0)
      Phys.unitParams
      (by norm_num [Phys.centerDist, Phys.stoneAt, Phys.unitParams, Real.sqrt_one])
      (by norm_num [Phys.centerDist, Phys.stoneAt, Phys.unitParams, Real.sqrt_one])).1⟩

/-- C4 counterexample: the unconditional claim "post-resolution centre
distance is at least `2R − ε`" is false: an overlapping pair that is already
separating is returned unchanged, so its distance stays `1/2`, far below
`2R − ε = 2 − 1/100` (for `R = 1`, ε = 1/100, indeed for any ε < 3/2). -/
theorem resolveCollision_gap_counterexample :
    Phys.centerDist (Phys.stoneAt 0 0 0 0) (Phys.stoneAt (1/2) 0 1 0) <
      2 * Phys.unitParams.R ∧
    Phys.centerDist
      (Phys.resolveCollision (Phys.stoneAt 0 0 0 0) (Phys.stoneAt (1/2) 0 1 0)
        Phys.unitParams).1
      (Phys.resolveCollision (Phys.stoneAt 0 0 0 0) (Phys.stoneAt (1/2) 0 1 0)
        Phys.unitParams).2 = 1 / 2 ∧
    ¬(2 * Phys.unitParams.R - 1 / 100 ≤ 1 / 2) := by
  have hsqrt : Real.sqrt (((1:ℝ)/2 - 0) ^ 2 + (0 - 0) ^ 2) = 1 / 2 := by
    rw [show ((1:ℝ)/2 - 0) ^ 2 + (0 - 0) ^ 2 = (1/2) ^ 2 by norm_num,
      Real.sqrt_sq (by norm_num)]
  have hbranch : Phys.resolveCollision (Phys.stoneAt 0 0 0 0)
      (Phys.stoneAt (1/2) 0 1 0) Phys.unitParams =
      (Phys.stoneAt 0 0 0 0, Phys.stoneAt (1/2) 0 1 0) := by
    simp only [Phys.resolveCollision, Phys.stoneAt]
    rw [show ((1:ℝ)/2 - 0) ^ 2 + (0 - 0) ^ 2 = (1/2) ^ 2 by norm_num,
      Real.sqrt_sq (by norm_num : (0:ℝ) ≤ 1/2)]
    norm_num
  refine ⟨?_, ?_, ?_⟩
  · simp only [Phys.centerDist, Phys.stoneAt, Phys.unitParams]
    rw [hsqrt]
    norm_num
  · rw [hbranch]
    simp only [Phys.centerDist, Phys.stoneAt]
    exact hsqrt
  · simp only [Phys.unitParams]
    norm_num

/-! ## Integration order (C7) -/

theorem eulerStep_stepRel (p : Phys.Params) (s : Phys.State) :
    Phys.stepRel p s (Phys.eulerStep p s) :=
  ⟨rfl, rfl, rfl, rfl, rfl⟩

theorem drawEulerStep_eq_eulerStep : Phys.drawEulerStep = Phys.eulerStep := rfl

theorem drawEulerStep_stepRel (p : Phys.Params) (s : Phys.State) :
    Phys.stepRel p s (Phys.drawEulerStep p s) :=
  ⟨rfl, rfl, rfl, rfl, rfl⟩

theorem simStoneAux_chain (p : Phys.Params) : ∀ (n : ℕ) (s : Phys.State),
    List.Chain' (Phys.stepRel p) (s :: (Phys.simStoneAux p n s).1) := by
  intro n
  induction n with
  | zero => intro s; simp [Phys.simStoneAux]
  | succ n ih =>
    intro s
    simp only [Phys.simStoneAux]
    split_ifs with h
    · simp
    · rw [List.chain'_cons]
      exact ⟨eulerStep_stepRel p s, ih (Phys.eulerStep p s)⟩

theorem drawAux_chain (p : Phys.Params) (geom : Phys.SheetDims) :
    ∀ (n : ℕ) (s : Phys.State),
    List.Chain' (Phys.stepRel p) (s :: Phys.drawAux p geom n s) := by
  intro n
  induction n with
  | zero => intro s; simp [Phys.drawAux]
  | succ n ih =>
    intro s
    simp only [Phys.drawAux]
    split_ifs with h1 h2
    · simp
    · rw [List.chain'_cons]
      exact ⟨drawEulerStep_stepRel p s, List.chain'_singleton _⟩
    · rw [List.chain'_cons]
      exact ⟨drawEulerStep_stepRel p s, ih (Phys.drawEulerStep p s)⟩

/-- C7: every accepted integration step of `simulateStone` and of
`simulateDraw` follows the semi-implicit Euler order — `v' = v + dt·(F/m)`,
`w' = w + dt·(τ/I)` first, then `x' = x + dt·v'`, `y' = y + dt·v'` with the
*updated* velocities — for every state, stone, and parameter set (every pair
of consecutive snapshots of both trajectories is related by `stepRel`). -/
theorem integration_is_semi_implicit (stone : Phys.Stone) (p : Phys.Params)
    (duration : ℝ) (cc : Bool) (Vmag omegaMag : ℝ) (turnStr : String)
    (startPt broomPt : ℝ × ℝ) (geom : Phys.SheetDims) :
    List.Chain' (Phys.stepRel p) (Phys.simulateStone stone p duration cc).1 ∧
    List.Chain' (Phys.stepRel p)
      (Phys.simulateDraw Vmag omegaMag turnStr p startPt broomPt geom) := by
  constructor
  · exact simStoneAux_chain p _ _
  · exact drawAux_chain p geom _ _

/-! ## Bounded termination of the multi-stone loop (C8) -/

theorem simulateAllLoop_isSome (p : Phys.Params) (geom : Phys.SheetDims)
    (duration : ℝ) : ∀ (fuel : ℕ) (time : ℝ) (stones : List Phys.Stone)
    (trajs : ℕ → List Phys.State), duration ≤ time + fuel * p.dt →
    (Phys.simulateAllLoop p geom duration fuel time stones trajs).isSome := by
  intro fuel
  induction fuel with
  | zero =>
    intro time stones trajs hle
    simp only [Phys.simulateAllLoop]
    rw [if_neg]
    · simp
    · rintro ⟨hlt, -⟩
      simp only [Nat.cast_zero, zero_mul, add_zero] at hle
      linarith
  | succ f ih =>
    intro time stones trajs hle
    simp only [Phys.simulateAllLoop]
    split_ifs with h1 h2
    · simp
    · apply ih
      push_cast at hle
      linarith
    · simp

/-- C8: for every parameter set with `dt > 0` and every duration and stone
list, `simulateAll` terminates: the while loop completes within
`⌈duration/dt⌉` ticks (the fuel `simulateAll` runs with). -/
theorem simulateAll_terminates (p : Phys.Params) (duration : ℝ)
    (stones : List Phys.Stone) (geom : Phys.SheetDims) (hdt : 0 < p.dt) :
    (Phys.simulateAll p duration stones geom).isSome := by
  refine simulateAllLoop_isSome p geom duration _ 0 stones _ ?_
  rcases le_or_lt duration 0 with h | h
  · have hnn : (0:ℝ) ≤ ((⌈duration / p.dt⌉.toNat : ℕ) : ℝ) * p.dt := by positivity
    linarith
  · have hpos : 0 < duration / p.dt := div_pos h hdt
    have hceil : (0:ℤ) ≤ ⌈duration / p.dt⌉ := Int.ceil_nonneg (le_of_lt hpos)
    have hcast : ((⌈duration / p.dt⌉.toNat : ℕ) : ℝ) = ((⌈duration / p.dt⌉ : ℤ) : ℝ) := by
      exact_mod_cast congrArg (fun z : ℤ => (z : ℝ)) (Int.toNat_of_nonneg hceil)
    have hge : duration / p.dt ≤ ((⌈duration / p.dt⌉.toNat : ℕ) : ℝ) := by
      rw [hcast]
      exact Int.le_ceil _
    have hmul : duration / p.dt * p.dt ≤ ((⌈duration / p.dt⌉.toNat : ℕ) : ℝ) * p.dt :=
      mul_le_mul_of_nonneg_right hge (le_of_lt hdt)
    rw [div_mul_cancel₀ duration (ne_of_gt hdt)] at hmul
    linarith

/-- Witness for C8: all-ones parameters (`dt = 1 > 0`), duration 2, no
stones. -/
theorem simulateAll_terminates_witness :
    0 < Phys.unitParams.dt ∧
    (Phys.simulateAll Phys.unitParams 2 [] Phys.unitSheet).isSome :=
  ⟨by norm_num [Phys.unitParams],
    simulateAll_terminates Phys.unitParams 2 [] Phys.unitSheet
      (by norm_num [Phys.unitParams])⟩

/-! ## Terminal collapse at shot 15 (C2) -/

theorem isInPlay_at_origin_depth : Curling.isInPlay 0 (-1) = true := by
  simp only [Curling.isInPlay, decide_eq_true_eq]
  norm_num [Curling.HALF_WIDTH, Curling.D_STONE, Curling.BACK_LINE, Curling.HOG_LINE]

theorem isInPlay_at_tie_depth : Curling.isInPlay 0 (1 + 5e-10) = true := by
  simp only [Curling.isInPlay, decide_eq_true_eq]
  norm_num [Curling.HALF_WIDTH, Curling.D_STONE, Curling.BACK_LINE, Curling.HOG_LINE]

theorem hypot2_origin_depth : Curling.hypot2 0 (-1) = 1 := by
  rw [Curling.hypot2, show ((0:ℝ)^2 + (-1:ℝ)^2) = 1 by norm_num, Real.sqrt_one]

theorem hypot2_tie_depth : Curling.hypot2 0 (1 + 5e-10) = 1 + 5e-10 := by
  rw [Curling.hypot2, show ((0:ℝ)^2 + ((1:ℝ) + 5e-10)^2) = ((1:ℝ) + 5e-10)^2 by ring,
    Real.sqrt_sq (by norm_num)]

theorem houseDists_nearTie_red :
    Curling.houseDists Curling.nearTieStones Curling.RED = [1] := by
  have hc1 : True ∧ Curling.isInPlay 0 (-1) = true ∧
      Curling.hypot2 0 (-1) ≤ Curling.R_HOUSE :=
    ⟨trivial, isInPlay_at_origin_depth, by
      rw [hypot2_origin_depth]
      norm_num [Curling.R_HOUSE]⟩
  have hc2 : ¬(Curling.YELLOW = Curling.RED ∧ Curling.isInPlay 0 (1 + 5e-10) = true ∧
      Curling.hypot2 0 (1 + 5e-10) ≤ Curling.R_HOUSE) :=
    fun hcon => absurd hcon.1 (by decide)
  simp only [Curling.houseDists, Curling.nearTieStones, List.filter_cons, List.filter_nil,
    decide_eq_true_eq]
  rw [if_pos hc1, if_neg hc2]
  simp only [List.map_cons, List.map_nil, hypot2_origin_depth]

theorem houseDists_nearTie_yellow :
    Curling.houseDists Curling.nearTieStones Curling.YELLOW = [1 + 5e-10] := by
  have hc1 : ¬(Curling.RED = Curling.YELLOW ∧ Curling.isInPlay 0 (-1) = true ∧
      Curling.hypot2 0 (-1) ≤ Curling.R_HOUSE) :=
    fun hcon => absurd hcon.1 (by decide)
  have hc2 : True ∧ Curling.isInPlay 0 (1 + 5e-10) = true ∧
      Curling.hypot2 0 (1 + 5e-10) ≤ Curling.R_HOUSE :=
    ⟨trivial, isInPlay_at_tie_depth, by
      rw [hypot2_tie_depth]
      norm_num [Curling.R_HOUSE]⟩
  simp only [Curling.houseDists, Curling.nearTieStones, List.filter_cons, List.filter_nil,
    decide_eq_true_eq]
  rw [if_pos hc2, if_neg hc1]
  simp only [List.map_cons, List.map_nil, hypot2_tie_depth]

theorem min_getD_singleton (a : ℝ) : (([a] : List ℝ)).min?.getD 0 = a := rfl

theorem terminalScore_nearTie :
    Curling.terminalScore Curling.nearTieStones Curling.RED = 0 := by
  simp only [Curling.terminalScore, houseDists_nearTie_red, houseDists_nearTie_yellow,
    min_getD_singleton]
  rw [if_neg fun hcon => List.cons_ne_nil _ _ hcon.1,
    if_neg fun hcon => hcon.2.elim (fun h => List.cons_ne_nil _ _ h)
      (fun h => by norm_num at h),
    if_neg fun hcon => hcon.2.elim (fun h => List.cons_ne_nil _ _ h)
      (fun h => by norm_num at h)]

theorem terminalOutcomeStrict_nearTie :
    Curling.terminalOutcomeStrict Curling.nearTieStones Curling.RED = 1 := by
  simp only [Curling.terminalOutcomeStrict, houseDists_nearTie_red,
    houseDists_nearTie_yellow, min_getD_singleton]
  rw [if_neg fun hcon => List.cons_ne_nil _ _ hcon.1,
    if_neg (List.cons_ne_nil _ _),
    if_neg (List.cons_ne_nil _ _),
    if_pos (by norm_num : (1:ℝ) < 1 + 5e-10)]
  norm_num [List.filter_cons, List.filter_nil]

/-- C2 (amended): at `shotNumber = 15` with at most 8 stones per team the
distribution is degenerate — probability 1 on the single bucket given by the
terminal computation *with the source's `1e-9` tolerances*: the closest team
must be closer by more than `1e-9` (a tie within `1e-9` scores 0) and only
its stones more than `1e-9` closer than the best opposing stone are counted
(cap at 8 unchanged, inert for ≤ 8 stones); all other buckets are 0. -/
theorem shot15_degenerate_terminal (hammer : String) (stones : List Curling.StoneIn)
    (skill : ℝ)
    (hred : (stones.filter fun st => st.1 = Curling.RED).length ≤ 8)
    (hyel : (stones.filter fun st => st.1 = Curling.YELLOW).length ≤ 8) :
    ((Curling.evaluatePosition17 15 hammer stones skill).buckets17
      (Curling.terminalOutcomeTol stones hammer) = 1) ∧
    (∀ k : ℤ, k ≠ Curling.terminalOutcomeTol stones hammer →
      (Curling.evaluatePosition17 15 hammer stones skill).buckets17 k = 0) := by
  rw [Curling.eval_buckets_terminal]
  simp only [Curling.collapseToTerminal]
  rw [Curling.terminalScore_eq_tol stones hammer hred hyel]
  exact ⟨if_pos rfl, fun k hk => if_neg hk⟩

/-- Witness for the amended C2 at the concrete input `(15, red, [], 50)`. -/
theorem shot15_degenerate_terminal_witness :
    ((([] : List Curling.StoneIn).filter fun st => st.1 = Curling.RED).length ≤ 8 ∧
      (([] : List Curling.StoneIn).filter fun st => st.1 = Curling.YELLOW).length ≤ 8) ∧
    ((Curling.evaluatePosition17 15 Curling.RED [] 50).buckets17
      (Curling.terminalOutcomeTol [] Curling.RED) = 1) ∧
    (∀ k : ℤ, k ≠ Curling.terminalOutcomeTol [] Curling.RED →
      (Curling.evaluatePosition17 15 Curling.RED [] 50).buckets17 k = 0) :=
  ⟨⟨by simp, by simp⟩,
    (shot15_degenerate_terminal Curling.RED [] 50 (by simp) (by simp)).1,
    (shot15_degenerate_terminal Curling.RED [] 50 (by simp) (by simp)).2⟩

/-- C2 counterexample: the claim's tolerance-free terminal computation does
not match the code.  In the near-tie position (red best 1, yellow best
`1 + 5·10⁻¹⁰`, hammer red, shot 15) the claim's computation scores +1 for
red, but the code treats the race as a tie (`1e-9` tolerance) and puts
probability 1 on bucket 0 and probability 0 on bucket +1. -/
theorem shot15_strict_terminal_counterexample :
    Curling.terminalOutcomeStrict Curling.nearTieStones Curling.RED = 1 ∧
    (Curling.evaluatePosition17 15 Curling.RED Curling.nearTieStones 50).buckets17 1 = 0 ∧
    (Curling.evaluatePosition17 15 Curling.RED Curling.nearTieStones 50).buckets17 0 = 1 := by
  refine ⟨terminalOutcomeStrict_nearTie, ?_, ?_⟩ <;>
    rw [Curling.eval_buckets_terminal] <;>
    simp only [Curling.collapseToTerminal, terminalScore_nearTie] <;>
    norm_num

/-- C10 counterexample: the blanket claim fails when the *hammer* label is
itself an unrecognised tag carried by a stone — `congestionTerm` counts
centre-line stones of whatever string the hammer label is, so with hammer
`"A"` and a stone `("A", 0.3, 2.5)` (beyond the house, on the centre band)
the advantage differs from the empty-list evaluation by the congestion term
`−0.2·√(15/16)`. -/
theorem unrecognized_hammer_not_invisible :
    (Curling.evaluatePosition17 0 Curling.ATAG
        [(Curling.ATAG, (0.3 : ℝ), (2.5 : ℝ))] 50).advantage.red ≠
      (Curling.evaluatePosition17 0 Curling.ATAG [] 50).advantage.red := by
  have hr : ∀ st ∈ [((Curling.ATAG : String), (0.3 : ℝ), (2.5 : ℝ))],
      st.1 ≠ Curling.RED := by
    intro st hst
    rw [List.mem_singleton] at hst
    subst hst
    decide
  have hy : ∀ st ∈ [((Curling.ATAG : String), (0.3 : ℝ), (2.5 : ℝ))],
      st.1 ≠ Curling.YELLOW := by
    intro st hst
    rw [List.mem_singleton] at hst
    subst hst
    decide
  have hgt : Curling.R_HOUSE < Curling.hypot2 0.3 2.5 := by
    rw [Curling.hypot2, Curling.R_HOUSE]
    have h2 : (1.829 : ℝ) = Real.sqrt (1.829 ^ 2) := (Real.sqrt_sq (by norm_num)).symm
    rw [h2]
    exact Real.sqrt_lt_sqrt (by norm_num) (by norm_num)
  have hcc_red : Curling.countCenter [(Curling.ATAG, (0.3 : ℝ), (2.5 : ℝ))]
      Curling.RED = 0 :=
    Curling.countCenter_eq_zero _ _ hr
  have hcc_atag : Curling.countCenter [(Curling.ATAG, (0.3 : ℝ), (2.5 : ℝ))]
      Curling.ATAG = 1 := by
    simp only [Curling.countCenter, List.filter_cons, List.filter_nil,
      decide_eq_true_eq]
    rw [if_pos ⟨trivial, hgt, by
      rw [abs_le]
      constructor <;> norm_num [Curling.CENTER_BAND]⟩]
    rfl
  have hcs : ∀ s : ℤ, Curling.congestionTerm [(Curling.ATAG, (0.3 : ℝ), (2.5 : ℝ))]
      Curling.ATAG s = Curling.W_CONG * ((0 : ℝ) - 1) * Real.sqrt (max (s : ℝ) 0 / 16.0) := by
    intro s
    simp only [Curling.congestionTerm]
    rw [if_neg (show ¬(Curling.ATAG = Curling.RED) by decide), hcc_red, hcc_atag]
    norm_num
  have hce : ∀ (t : String) (s : ℤ), Curling.congestionTerm [] t s = 0 := by
    intro t s
    simp [Curling.congestionTerm, Curling.countCenter]
  simp only [Curling.evaluatePosition17]
  rw [Curling.computeTeamStoneValues_nil Curling.RED _ hr,
    Curling.computeTeamStoneValues_nil Curling.YELLOW _ hy,
    Curling.computeTeamStoneValues_empty Curling.RED,
    Curling.computeTeamStoneValues_empty Curling.YELLOW,
    Curling.applyDoubleVulnerability_nil [(Curling.ATAG, (0.3 : ℝ), (2.5 : ℝ))] _ 50,
    Curling.applyDoubleVulnerability_nil [] _ 50, hcs, hce]
  simp only [List.map_nil, List.sum_nil, sub_self, add_zero, Curling.W_CONG]
  intro heq
  have hq : (0 : ℝ) < Real.sqrt (max ((16 - ((0 : ℕ) + 1) : ℤ) : ℝ) 0 / 16.0) :=
    Real.sqrt_pos.mpr (by norm_num)
  nlinarith [hq]
